import Mathlib

/-!
Shallow embedding of the daily window manager core (window / screen / monitor
state machine and layout engine) translated from the Rust sources:
src/window.rs, src/screen.rs, src/winman.rs, src/layout/horizontal.rs,
src/layout/vertical.rs, src/layout/full.rs, src/monitor.rs, src/context.rs.

Modelling conventions:
- X protocol ids (Window ids) are Nat; InputFocus::NONE is 0.
- i16/i32 coordinates are Int, u16/u32 sizes are Nat; overflow is modelled
  with an explicit mod 2^16 where the source can actually wrap (the height
  increment in Window::float); elsewhere the values in scope are tiny.
- Rust u16/u32 subtraction is translated by truncated Nat subtraction.
- The X server connection is a record XState carrying the currently focused
  window (set_input_focus / get_input_focus) and a log of the issued
  window-management requests (map, unmap, configure, focus, destroy,
  border-pixel changes).  Pure drawing traffic (poly_line, poly_point,
  image_text, fill, GC changes: Screen::draw_bar, Window::draw_frame) is not
  tracked in the log, as no claim concerns pixel content.
- Rust panics (assert!, expect, unwrap, out-of-range indexing) are modelled
  as Except.error carrying the panic message; a provably non-terminating
  iterator chain is likewise an error value.
- The sources in this snapshot mix two revisions: screen.rs matches a window
  revision whose WindowState had a Hidden variant, while window.rs replaces
  that variant by a separate hidden flag.  Following window.rs (the cited
  revision for the Window claims), a check "state == WindowState::Hidden"
  from screen.rs is translated as the hidden flag being set, and
  "state == Mapped" as the state field being Mapped.
-/

namespace Daily

abbrev Wid := Nat

/-- xproto Rectangle: x, y are i16; width, height are u16. -/
structure Rectangle where
  x : Int
  y : Int
  width : Nat
  height : Nat
deriving Repr, DecidableEq

/-- randr MonitorInfo (the geometry fields used by the layouts). -/
structure MonitorInfo where
  x : Int
  y : Int
  width : Nat
  height : Nat
deriving Repr, DecidableEq

inductive StackMode where
  | above
  | below
deriving Repr, DecidableEq

/-- xproto ConfigureWindowAux: every field optional, defaulting to unset. -/
structure ConfigureWindowAux where
  x : Option Int := none
  y : Option Int := none
  width : Option Nat := none
  height : Option Nat := none
  border_width : Option Nat := none
  stack_mode : Option StackMode := none
  sibling : Option Wid := none
deriving Repr, DecidableEq

/-- Window-management protocol requests tracked by the model. -/
inductive Request where
  | mapWindow (wid : Wid)
  | unmapWindow (wid : Wid)
  | configureWindow (wid : Wid) (aux : ConfigureWindowAux)
  | setInputFocus (wid : Wid)
  | destroyWindow (wid : Wid)
  | sendWmDelete (wid : Wid)
  | reparentWindow (wid : Wid) (parent : Wid)
  | setBorderPixel (wid : Wid) (focused_color : Bool)
deriving Repr, DecidableEq

/-- The modelled X server state: current input focus plus the request log.
get_focused_window returns none for the POINTER_ROOT / NONE pseudo-focus. -/
structure XState where
  focused : Option Wid := none
  log : List Request := []
deriving Repr, DecidableEq

def XState.emit (st : XState) (r : Request) : XState :=
  { st with log := st.log ++ [r] }

def XState.emitAll (st : XState) (rs : List Request) : XState :=
  { st with log := st.log ++ rs }

/-- ContextInner::focus_window: one set_input_focus request, which makes the
window the focused one. -/
def XState.focusWindow (st : XState) (wid : Wid) : XState :=
  { st with focused := some wid, log := st.log ++ [.setInputFocus wid] }

/-- window.rs WindowState (revision without the Hidden variant). -/
inductive WindowState where
  | Created
  | Mapped
  | Unmapped
deriving Repr, DecidableEq

/-- window.rs Window.  The Context handle, the Gcontext and the ids created
during Window::new are not re-modelled; frame and inner are the two ids. -/
structure Window where
  frame : Wid
  inner : Wid
  state : WindowState
  hidden : Bool := false
  float_geometry : Option Rectangle := none
  frame_visible : Bool := false
  highlighted : Bool := false
  border_width : Nat := 0
  is_wm_delete_compliant : Bool := false
deriving Repr, DecidableEq

namespace Window

def is_mapped (w : Window) : Bool := w.state = WindowState.Mapped

def is_floating (w : Window) : Bool := w.float_geometry.isSome

def contains (w : Window) (wid : Wid) : Bool := w.inner = wid || w.frame = wid

def get_float_geometry (w : Window) : Option Rectangle := w.float_geometry

/-- The three configure_window requests issued by Window::configure:
the frame configure (border width defaulted from the window), the dummy
inner configure (x = 1), and the inner sub-rectangle configure. -/
def configureReqs (w : Window) (aux : ConfigureWindowAux) : List Request :=
  let bw := aux.border_width.getD w.border_width
  let frame_aux := { aux with border_width := some bw }
  let y0 : Nat := if w.frame_visible then 16 else 0
  let inner0 : ConfigureWindowAux :=
    { x := some 0, y := some (Int.ofNat y0), border_width := some 0 }
  let inner1 := match aux.width with
    | some wd => { inner0 with width := some wd }
    | none => inner0
  let inner2 := match aux.height with
    | some h => { inner1 with height := some (h - y0) }
    | none => inner1
  [Request.configureWindow w.frame frame_aux,
   Request.configureWindow w.inner { x := some 1 },
   Request.configureWindow w.inner inner2]

def configure (w : Window) (aux : ConfigureWindowAux) (st : XState) : XState :=
  st.emitAll (w.configureReqs aux)

/-- ContextInner::focus_window on the inner window (Window::focus). -/
def focus (w : Window) (st : XState) : XState :=
  st.focusWindow w.inner

/-- Window::map.  The protocol map requests are guarded only by the hidden
flag; the state check guards only the focus grab for Created windows. -/
def map (w : Window) (st : XState) : Window × XState :=
  let st := if !w.hidden
    then (st.emit (.mapWindow w.frame)).emit (.mapWindow w.inner)
    else st
  let st := if w.state = WindowState.Created then w.focus st else st
  ({ w with state := WindowState.Mapped }, st)

def unmap (w : Window) (st : XState) : Window × XState :=
  ({ w with state := WindowState.Unmapped }, st.emit (.unmapWindow w.frame))

/-- Window::hide (unmap without changing state); asserts not already hidden. -/
def hide (w : Window) (st : XState) : Except String (Window × XState) :=
  if w.hidden then .error "assertion failed: !self.hidden"
  else .ok ({ w with hidden := true }, st.emit (.unmapWindow w.frame))

/-- Window::update_ornament: border pixel change on the frame (the frame
title drawing is pixel content, not tracked). -/
def update_ornament (w : Window) (st : XState) : XState :=
  st.emit (.setBorderPixel w.frame w.highlighted)

def set_highlight (w : Window) (b : Bool) (st : XState) : Window × XState :=
  let w := { w with highlighted := b }
  (w, w.update_ornament st)

def add_frame (w : Window) (st : XState) : Window × XState :=
  if w.frame_visible then (w, st)
  else
    let w := { w with frame_visible := true }
    let st := w.configure {} st
    (w, w.update_ornament st)

def remove_frame (w : Window) (st : XState) : Window × XState :=
  if !w.frame_visible then (w, st)
  else
    let w := { w with frame_visible := false }
    let st := w.configure {} st
    (w, w.update_ornament st)

/-- Window::float: show the decoration frame, raise to the top of the stack,
then store the rectangle with 16 added to its height (space for the frame;
u16 addition, hence the mod 2^16). -/
def float (w : Window) (rect : Rectangle) (st : XState) : Window × XState :=
  let (w, st) := w.add_frame st
  let st := st.emit (.configureWindow w.frame { stack_mode := some .above })
  let rect := { rect with height := (rect.height + 16) % 65536 }
  ({ w with float_geometry := some rect }, st)

/-- Window::sink: hide the decoration frame and clear the float geometry. -/
def sink (w : Window) (st : XState) : Window × XState :=
  let (w, st) := w.remove_frame st
  ({ w with float_geometry := none }, st)

/-- Window::close (consumes the Window): WM_DELETE_WINDOW client message if
the client advertises it, else a forced destroy; the Drop that follows
reparents the inner window back to the root (id 1 in the model) and destroys
the frame. -/
def close (w : Window) (st : XState) : XState :=
  let st := if w.is_wm_delete_compliant
    then st.emit (.sendWmDelete w.inner)
    else st.emit (.destroyWindow w.inner)
  (st.emit (.reparentWindow w.inner 1)).emit (.destroyWindow w.frame)

end Window

/-- config.rs: the border style scalar consumed by the layouts. -/
structure Config where
  border_width : Nat := 1
deriving Repr, DecidableEq

/-! ## Layout strategies (src/layout/horizontal.rs, vertical.rs, full.rs)

Each strategy is factored into a pure placement function returning the
sequence of windows (or frame ids) paired with the ConfigureWindowAux the
source builds for them, and an effectful wrapper that issues the requests
exactly as the source does (Horizontal goes through Window::configure,
Vertical and FullScreen call configure_window on the frame directly). -/

/-- The tail loop of Horizontal::layout: every remaining window gets width w,
the running x offset advancing by w per window. -/
def horizRest (mon : MonitorInfo) (bw wdt : Nat) :
    List Window → Int → List (Window × ConfigureWindowAux)
  | [], _ => []
  | win :: rest, pos =>
    (win,
      { x := some (mon.x + pos), y := some mon.y, border_width := some bw,
        width := some (wdt - bw * 2), height := some (mon.height - bw * 2) })
      :: horizRest mon bw wdt rest (pos + (wdt : Int))

/-- Horizontal::layout, placement part: window 0 gets ratio percent of the
monitor width (all of it when alone), the others split the remainder. -/
def horizontalPlace (ratio : Nat) (cfg : Config) (mon : MonitorInfo)
    (windows : List Window) (border_visible : Bool) :
    List (Window × ConfigureWindowAux) :=
  match windows with
  | [] => []
  | w0 :: rest =>
    let bw := if border_visible then cfg.border_width else 0
    let mainAndRest : Nat × Nat :=
      if windows.length > 1 then
        let main_w := mon.width * ratio / 100
        (main_w, (mon.width - main_w) / (windows.length - 1))
      else
        (mon.width, 0)
    let main_w := mainAndRest.1
    let wdt := mainAndRest.2
    (w0,
      { x := some (mon.x + 0), y := some mon.y, border_width := some bw,
        width := some (main_w - bw * 2), height := some (mon.height - bw * 2) })
      :: horizRest mon bw wdt rest (main_w : Int)

/-- Horizontal::layout: apply each placement through Window::configure. -/
def horizontalLayout (ratio : Nat) (cfg : Config) (mon : MonitorInfo)
    (windows : List Window) (border_visible : Bool) (st : XState) : XState :=
  (horizontalPlace ratio cfg mon windows border_visible).foldl
    (fun st p => p.1.configure p.2 st) st

/-- Horizontal::process_command on the ratio: "+" adds 5 below 95, "-"
subtracts 5 above 5, anything else leaves the ratio unchanged. -/
def horizontalProcessCommand (ratio : Nat) (cmd : String) : Nat :=
  if cmd = "+" then
    if ratio < 95 then ratio + 5 else ratio
  else if cmd = "-" then
    if ratio > 5 then ratio - 5 else ratio
  else ratio

/-- Vertical::layout, placement part: height is divided evenly (u16 integer
division), the requests target the frame ids directly. -/
def verticalRest (mon : MonitorInfo) (bw wdt hgt : Nat) :
    List Window → Int → List (Wid × ConfigureWindowAux)
  | [], _ => []
  | win :: rest, pos =>
    (win.frame,
      { x := some mon.x, y := some (mon.y + pos), border_width := some bw,
        width := some (wdt - bw * 2), height := some (hgt - bw * 2) })
      :: verticalRest mon bw wdt hgt rest (pos + (hgt : Int))

def verticalPlace (cfg : Config) (mon : MonitorInfo) (windows : List Window)
    (border_visible : Bool) : List (Wid × ConfigureWindowAux) :=
  match windows with
  | [] => []
  | _ :: _ =>
    let bw := if border_visible then cfg.border_width else 0
    let hgt := mon.height / windows.length
    verticalRest mon bw mon.width hgt windows 0

def verticalLayout (cfg : Config) (mon : MonitorInfo) (windows : List Window)
    (border_visible : Bool) (st : XState) : XState :=
  (verticalPlace cfg mon windows border_visible).foldl
    (fun st p => st.emit (.configureWindow p.1 p.2)) st

/-- FullScreen::layout, placement part: every window covers the monitor; the
one containing the current focus is additionally raised to the top. -/
def fullScreenPlace (mon : MonitorInfo) (windows : List Window)
    (focus : Wid) : List (Wid × ConfigureWindowAux) :=
  let base : ConfigureWindowAux :=
    { x := some mon.x, y := some mon.y, border_width := some 0,
      width := some mon.width, height := some mon.height }
  windows.map (fun win =>
    (win.frame,
     if win.contains focus then { base with stack_mode := some .above } else base))

def fullScreenLayout (mon : MonitorInfo) (windows : List Window)
    (st : XState) : XState :=
  let focus := st.focused.getD 0
  (fullScreenPlace mon windows focus).foldl
    (fun st p => st.emit (.configureWindow p.1 p.2)) st

/-- The closed ring of layout strategies a Screen owns (Screen::new pushes
HorizontalWithBorder, VerticalWithBorder, FullScreen; the WithBorder wrappers
force border_visible to true).  The Horizontal ratio is the strategy-local
mutable state. -/
inductive LayoutState where
  | horizontalWithBorder (ratio : Nat)
  | verticalWithBorder
  | fullScreen
deriving Repr, DecidableEq

def LayoutState.name : LayoutState → String
  | .horizontalWithBorder _ => "horizontal-with-border"
  | .verticalWithBorder => "vertical-with-border"
  | .fullScreen => "full-screen"

def LayoutState.layout (l : LayoutState) (cfg : Config) (mon : MonitorInfo)
    (windows : List Window) (border_visible : Bool) (st : XState) : XState :=
  match l with
  | .horizontalWithBorder ratio => horizontalLayout ratio cfg mon windows true st
  | .verticalWithBorder => verticalLayout cfg mon windows true st
  | .fullScreen =>
    let _ := border_visible
    fullScreenLayout mon windows st

/-! ## Monitor and Screen (src/monitor.rs, src/screen.rs) -/

/-- Monitor: stable id plus the geometry snapshot.  The BarHandle collaborator
is out of the modelled core. -/
structure Monitor where
  id : Nat
  info : MonitorInfo
deriving Repr, DecidableEq

/-- The wins BTreeMap of a Screen, keyed by frame id: a list kept sorted by
strictly ascending frame id.  Iteration order of the map is this list order. -/
def winsInsert : List Window → Window → List Window
  | [], w => [w]
  | v :: rest, w =>
    if w.frame < v.frame then w :: v :: rest
    else if w.frame = v.frame then w :: rest
    else v :: winsInsert rest w

/-- BTreeMap::remove by key, returning the removed entry. -/
def winsRemove : List Window → Wid → Option Window × List Window
  | [], _ => (none, [])
  | v :: rest, k =>
    if v.frame = k then (some v, rest)
    else
      let r := winsRemove rest k
      (r.1, v :: r.2)

def winsContainsKey (l : List Window) (k : Wid) : Bool :=
  l.any (fun w => w.frame = k)

/-- Screen (src/screen.rs).  The bar Gcontext and the Context handle are not
re-modelled; cfg is the shared immutable configuration. -/
structure Screen where
  id : Nat
  cfg : Config
  monitor : Option Monitor := none
  wins : List Window := []
  background : Window
  bar : Window
  layouts : List LayoutState :=
    [.horizontalWithBorder 50, .verticalWithBorder, .fullScreen]
  current_layout : Nat := 0
  border_visible : Bool := false
deriving Repr, DecidableEq

namespace Screen

def contains (s : Screen) (wid : Wid) : Bool :=
  s.background.contains wid || s.bar.contains wid ||
  winsContainsKey s.wins wid || s.wins.any (fun w => w.contains wid)

/-- Which window Screen::window_mut resolves a wid to: the background, the
bar, or the first client window containing it (in map order). -/
inductive WinRef where
  | background
  | bar
  | client (i : Nat)
deriving Repr, DecidableEq

def windowRef (s : Screen) (wid : Wid) : Option WinRef :=
  if s.background.contains wid then some .background
  else if s.bar.contains wid then some .bar
  else match s.wins.findIdx? (fun w => w.contains wid) with
    | some i => some (.client i)
    | none => none

def getRef (s : Screen) : WinRef → Option Window
  | .background => some s.background
  | .bar => some s.bar
  | .client i => s.wins.get? i

def setRef (s : Screen) (r : WinRef) (w : Window) : Screen :=
  match r with
  | .background => { s with background := w }
  | .bar => { s with bar := w }
  | .client i => { s with wins := s.wins.set i w }

/-- Screen::update_background: position the background below everything and
the 16-pixel bar above it (draw_bar itself is pixel content). -/
def update_background (s : Screen) (st : XState) : Except String XState :=
  match s.monitor with
  | none => .error "monitor is not attached"
  | some mon =>
    let st := st.emit (.configureWindow s.background.frame
      { x := some mon.info.x, y := some mon.info.y,
        width := some mon.info.width, height := some mon.info.height,
        stack_mode := some .below })
    let st := st.emit (.configureWindow s.bar.frame
      { x := some mon.info.x, y := some mon.info.y,
        width := some mon.info.width, height := some 16,
        sibling := some s.background.frame, stack_mode := some .above })
    .ok st

/-- The attach loop over wins: map every window whose state is Mapped or
Hidden (the latter translated as the hidden flag, see the header note). -/
def attachWins : List Window → XState → List Window × XState
  | [], st => ([], st)
  | w :: rest, st =>
    if w.state = WindowState.Mapped || w.hidden then
      let p := w.map st
      let q := attachWins rest p.2
      (p.1 :: q.1, q.2)
    else
      let q := attachWins rest st
      (w :: q.1, q.2)

/-- Screen::attach: store the monitor, reposition background and bar, map
them, then re-map the previously mapped or hidden windows. -/
def attach (s : Screen) (monitor : Monitor) (st : XState) :
    Except String (Screen × XState) := do
  let s := { s with monitor := some monitor }
  let st ← s.update_background st
  let pbg := s.background.map st
  let pbar := s.bar.map pbg.2
  let pw := attachWins s.wins pbar.2
  .ok ({ s with background := pbg.1, bar := pbar.1, wins := pw.1 }, pw.2)

/-- The detach loop over wins: hide every currently mapped window. -/
def detachWins : List Window → XState → Except String (List Window × XState)
  | [], st => .ok ([], st)
  | w :: rest, st =>
    if w.is_mapped then do
      let p ← w.hide st
      let q ← detachWins rest p.2
      .ok (p.1 :: q.1, q.2)
    else do
      let q ← detachWins rest st
      .ok (w :: q.1, q.2)

/-- Screen::detach: no-op returning none when unattached; otherwise unmap
background and bar, hide the mapped windows, and yield the taken monitor. -/
def detach (s : Screen) (st : XState) :
    Except String (Option Monitor × Screen × XState) :=
  match s.monitor with
  | none => .ok (none, s, st)
  | some mon => do
    let pbg := s.background.unmap st
    let pbar := s.bar.unmap pbg.2
    let pw ← detachWins s.wins pbar.2
    .ok (some mon,
      { s with monitor := none, background := pbg.1, bar := pbar.1,
               wins := pw.1 },
      pw.2)

/-- Screen::swap_monitors: exchange the monitor fields of two screens and
refresh both background positions (panics if either side ends up bare). -/
def swap_monitors (a b : Screen) (st : XState) :
    Except String (Screen × Screen × XState) := do
  let a' := { a with monitor := b.monitor }
  let b' := { b with monitor := a.monitor }
  let st ← a'.update_background st
  let st ← b'.update_background st
  .ok (a', b', st)

/-- Screen::focus_any: focus the first mapped-or-hidden client window, else
the background. -/
def focus_any (s : Screen) (st : XState) : XState :=
  match s.wins.find? (fun w => w.state = WindowState.Mapped || w.hidden) with
  | some first => first.focus st
  | none => s.background.focus st

/-- The cyclic iterator of Screen::focus_next: cycle() over l, skip while
not at old, then take the following element.  none models the diverging
skip_while when old never occurs in l. -/
def cyclicNext (l : List Wid) (old : Wid) : Option Wid :=
  match l.dropWhile (fun wid => wid ≠ old) with
  | [] => none
  | [_] => l.head?
  | _ :: b :: _ => some b

/-- Screen::focus_next: fall back to focus_any when the focused window is
not on this screen or is the background or the bar; otherwise focus the
mapped window following the focused one in cyclic ascending-key order. -/
def focus_next (s : Screen) (st : XState) : Except String XState :=
  let old := st.focused.getD 0
  if !(s.contains old) || s.background.contains old || s.bar.contains old then
    .ok (s.focus_any st)
  else
    match (s.windowRef old).bind s.getRef with
    | none => .error "called Option::unwrap on a None value"
    | some oldWin =>
      let oldFrame := oldWin.frame
      let mapped := (s.wins.filter (fun w => w.is_mapped)).map (fun w => w.frame)
      match cyclicNext mapped oldFrame with
      | none => .error "focus_next: cyclic iterator does not terminate"
      | some nxt =>
        match s.wins.find? (fun w => w.frame = nxt) with
        | some win => .ok (win.focus st)
        | none => .ok st

/-- The floating branch of Screen::refresh_layout: each mapped floating
window is repositioned to monitor origin plus its stored rectangle.  The
unwrap of the float geometry cannot fail under the is_floating filter. -/
def floatingReqs (mi : MonitorInfo) (l : List Window) : List Request :=
  (l.filter (fun w => w.is_mapped && w.is_floating)).filterMap (fun w =>
    w.float_geometry.map (fun geo =>
      .configureWindow w.frame
        { x := some (mi.x + geo.x), y := some (mi.y + geo.y),
          width := some geo.width, height := some geo.height }))

/-- The highlight branch of Screen::refresh_layout: every mapped window is
re-highlighted by comparison with the focused window. -/
def highlightWins (focused : Wid) : List Window → XState → List Window × XState
  | [], st => ([], st)
  | w :: rest, st =>
    if w.is_mapped then
      let p := w.set_highlight (w.contains focused) st
      let q := highlightWins focused rest p.2
      (p.1 :: q.1, q.2)
    else
      let q := highlightWins focused rest st
      (w :: q.1, q.2)

/-- Screen::refresh_layout: no-op when unattached; otherwise feed the sorted
mapped non-floating windows to the active layout (with a 16-pixel strip
reserved for the bar except under full-screen), reposition the mapped
floating windows, and recompute every mapped window highlight. -/
def refresh_layout (s : Screen) (st : XState) : Except String (Screen × XState) :=
  match s.monitor with
  | none => .ok (s, st)
  | some mon =>
    match s.layouts.get? s.current_layout with
    | none => .error "index out of bounds"
    | some layout =>
      let tiled := s.wins.filter (fun w => w.is_mapped && !w.is_floating)
      -- sort_unstable_by_key(frame) is the identity here: wins iterates in
      -- ascending frame-key order already.
      let mon_info :=
        if layout.name ≠ "full-screen" then
          { mon.info with y := mon.info.y + 16, height := mon.info.height - 16 }
        else mon.info
      let st := layout.layout s.cfg mon_info tiled s.border_visible st
      let st := st.emitAll (floatingReqs mon.info s.wins)
      let focused := st.focused.getD 0
      let ph := highlightWins focused s.wins st
      .ok ({ s with wins := ph.1 }, ph.2)

/-- Screen::next_layout: rotate the ring cursor and refresh. -/
def next_layout (s : Screen) (st : XState) : Except String (Screen × XState) :=
  let s := { s with current_layout := (s.current_layout + 1) % s.layouts.length }
  s.refresh_layout st

/-- Screen::add_window: no-op if the frame key is present; hide a mapped
window arriving on a parked screen; insert and refresh. -/
def add_window (s : Screen) (win : Window) (st : XState) :
    Except String (Screen × XState) :=
  if winsContainsKey s.wins win.frame then .ok (s, st)
  else do
    let p ← if s.monitor.isNone && win.is_mapped
      then win.hide st
      else .ok (win, st)
    let s := { s with wins := winsInsert s.wins p.1 }
    s.refresh_layout p.2

/-- Screen::forget_window: note (before anything is removed) whether the
focused window belongs to this screen, resolve the wid to its frame key,
remove that entry, run focus_next if the note was set, then refresh. -/
def forget_window (s : Screen) (wid : Wid) (st : XState) :
    Except String (Window × Screen × XState) := do
  let need_focus_change :=
    match st.focused with
    | some f => (s.windowRef f).isSome
    | none => false
  let frameKey ← match (s.windowRef wid).bind s.getRef with
    | some w => .ok w.frame
    | none => .error "unknown window"
  let removed ← match winsRemove s.wins frameKey with
    | (some win, rest) => .ok (win, rest)
    | (none, _) => .error "unknown window"
  let s := { s with wins := removed.2 }
  let st ← if need_focus_change then s.focus_next st else .ok st
  let p ← s.refresh_layout st
  .ok (removed.1, p.1, p.2)

def show_border (s : Screen) : Screen := { s with border_visible := true }

def hide_border (s : Screen) : Screen := { s with border_visible := false }

end Screen

/-! ## WinMan coordinator (src/winman.rs) -/

/-- The command vocabulary dispatched by WinMan::process_command (the
keybind enum of the revision winman.rs matches, including Sink). -/
inductive Command where
  | quit
  | restart
  | showBorder
  | hideBorder
  | close
  | sink
  | focusNext
  | focusPrev
  | focusNextMonitor
  | focusPrevMonitor
  | nextLayout
  | screen (id : Nat)
  | moveToScreen (id : Nat)
  | movePointerRel (dx dy : Int)
  | mouseClickLeft
  | spawn (cmd : String)
deriving Repr, DecidableEq

/-- WinMan: all screens (indexed by id), the monitor count and the root
window id.  The transient mouse-drag record plays no part in the claims
modelled here and is omitted. -/
structure WinMan where
  screens : List Screen
  monitor_num : Nat
  root : Wid
deriving Repr, DecidableEq

namespace WinMan

/-- WinMan::container_of_mut: the first screen containing the wid, together
with its position in the screens vector. -/
def containerOf : List Screen → Wid → Option (Nat × Screen)
  | [], _ => none
  | s :: rest, wid =>
    if s.contains wid then some (0, s)
    else (containerOf rest wid).map (fun p => (p.1 + 1, p.2))

def setScreen (wm : WinMan) (i : Nat) (s : Screen) : WinMan :=
  { wm with screens := wm.screens.set i s }

/-- WinMan::screen_mut_by_mon: the screen owning the monitor with this id
(panic "Monitor lost" when none does). -/
def screenByMon (wm : WinMan) (mon_id : Nat) : Except String Screen :=
  match wm.screens.find? (fun s =>
    match s.monitor with
    | some m => m.id = mon_id
    | none => false) with
  | some s => .ok s
  | none => .error "Monitor lost"

/-- WinMan::focused_screen_mut, id part: the id of the screen containing the
focused window, falling back to the screen owning monitor 0. -/
def focusedScreenId (wm : WinMan) (st : XState) : Except String Nat :=
  let idOpt :=
    match st.focused with
    | some wid => (containerOf wm.screens wid).map (fun p => p.2.id)
    | none => none
  match idOpt with
  | some id => .ok id
  | none => do
    let s ← wm.screenByMon 0
    .ok s.id

/-- WinMan::refresh_layout: refresh every screen in order. -/
def refreshAll : List Screen → XState → Except String (List Screen × XState)
  | [], st => .ok ([], st)
  | s :: rest, st => do
    let p ← s.refresh_layout st
    let q ← refreshAll rest p.2
    .ok (p.1 :: q.1, q.2)

def refresh_layout (wm : WinMan) (st : XState) : Except String (WinMan × XState) := do
  let p ← refreshAll wm.screens st
  .ok ({ wm with screens := p.1 }, p.2)

/-- WinMan::focus_changed = refresh_layout across all screens. -/
def focus_changed (wm : WinMan) (st : XState) : Except String (WinMan × XState) :=
  wm.refresh_layout st

/-- WinMan::switch_screen, the Screen(id) algorithm: invalid ids are logged
and succeed unchanged; a bare target steals the focused screen monitor; a
monitor-owning target swaps assignments unless it is the focused screen
itself; both mutating branches focus the target focus_any and refresh. -/
def switch_screen (wm : WinMan) (id : Nat) (st : XState) :
    Except String (WinMan × XState) :=
  if id ≥ wm.screens.length then .ok (wm, st)
  else do
    let current_id ← wm.focusedScreenId st
    let target ← match wm.screens.get? id with
      | some s => .ok s
      | none => .error "index out of bounds"
    if target.monitor.isNone then do
      -- HACK in the source: park the focus on the root between the detach
      -- and the attach.
      let st := st.focusWindow wm.root
      let current ← match wm.screens.get? current_id with
        | some s => .ok s
        | none => .error "index out of bounds"
      let pd ← current.detach st
      let mon ← match pd.1 with
        | some m => .ok m
        | none => .error "focus inconsistent"
      let wm := wm.setScreen current_id pd.2.1
      -- the source re-borrows screens[id] after the detach
      let new ← match wm.screens.get? id with
        | some s => .ok s
        | none => .error "index out of bounds"
      let pa ← new.attach mon pd.2.2
      let st := pa.1.focus_any pa.2
      let wm := wm.setScreen id pa.1
      wm.focus_changed st
    else
      if current_id = id then .ok (wm, st)
      else do
        let current ← match wm.screens.get? current_id with
          | some s => .ok s
          | none => .error "index out of bounds"
        let ps ← Screen.swap_monitors current target st
        let st := ps.2.1.focus_any ps.2.2
        let wm := (wm.setScreen current_id ps.1).setScreen id ps.2.1
        wm.focus_changed st

/-- WinMan::move_window_to_screen, the MoveToScreen(id) algorithm: invalid
ids succeed unchanged; only the background is refused; otherwise the focused
window is forgotten from its screen, that screen re-focuses, and the window
is added to the destination. -/
def move_window_to_screen (wm : WinMan) (id : Nat) (st : XState) :
    Except String (WinMan × XState) :=
  if id ≥ wm.screens.length then .ok (wm, st)
  else
    match st.focused with
    | none => .ok (wm, st)
    | some wid =>
      match containerOf wm.screens wid with
      | none => .ok (wm, st)
      | some (si, src) =>
        if src.background.contains wid then .ok (wm, st)
        else do
          let pf ← src.forget_window wid st
          let st := pf.2.1.focus_any pf.2.2
          let wm := wm.setScreen si pf.2.1
          let dst ← match wm.screens.get? id with
            | some s => .ok s
            | none => .error "index out of bounds"
          let pa ← dst.add_window pf.1 st
          let wm := wm.setScreen id pa.1
          wm.focus_changed pa.2

/-- WinMan::focus_monitor. -/
def focus_monitor (wm : WinMan) (mon_id : Nat) (st : XState) :
    Except String (WinMan × XState) := do
  let screen ← wm.screenByMon mon_id
  let st := screen.focus_any st
  wm.focus_changed st

/-- WinMan::process_command.  Quit and Restart unwind with distinguished
errors; Spawn, MovePointerRel and MouseClickLeft touch only external
collaborators and leave the modelled state unchanged. -/
def process_command (wm : WinMan) (cmd : Command) (st : XState) :
    Except String (WinMan × XState) :=
  match cmd with
  | .quit => .error "Quit"
  | .restart => .error "Restart"
  | .showBorder => do
    let wm := { wm with screens := wm.screens.map Screen.show_border }
    wm.refresh_layout st
  | .hideBorder => do
    let wm := { wm with screens := wm.screens.map Screen.hide_border }
    wm.refresh_layout st
  | .close =>
    match st.focused with
    | none => .ok (wm, st)
    | some wid =>
      match containerOf wm.screens wid with
      | none => .ok (wm, st)
      | some (si, screen) =>
        if screen.background.contains wid then .ok (wm, st)
        else do
          let pf ← screen.forget_window wid st
          let st := pf.1.close pf.2.2
          let wm := wm.setScreen si pf.2.1
          wm.refresh_layout st
  | .sink =>
    match st.focused with
    | none => .ok (wm, st)
    | some wid =>
      match containerOf wm.screens wid with
      | none => .ok (wm, st)
      | some (si, screen) =>
        if screen.background.contains wid then .ok (wm, st)
        else do
          let r ← match screen.windowRef wid with
            | some r => .ok r
            | none => .error "called Option::unwrap on a None value"
          let win ← match screen.getRef r with
            | some w => .ok w
            | none => .error "called Option::unwrap on a None value"
          let ps := win.sink st
          let wm := wm.setScreen si (screen.setRef r ps.1)
          wm.refresh_layout ps.2
  | .focusNext => do
    let cid ← wm.focusedScreenId st
    let screen ← match wm.screens.get? cid with
      | some s => .ok s
      | none => .error "index out of bounds"
    let st ← screen.focus_next st
    wm.focus_changed st
  | .focusPrev => .ok (wm, st)  -- not yet implemented (warn only)
  | .focusNextMonitor => do
    let cid ← wm.focusedScreenId st
    let screen ← match wm.screens.get? cid with
      | some s => .ok s
      | none => .error "index out of bounds"
    let mon ← match screen.monitor with
      | some m => .ok m
      | none => .error "focus inconsistent"
    if wm.monitor_num = 0 then .error "remainder by zero"
    else wm.focus_monitor ((mon.id + 1) % wm.monitor_num) st
  | .focusPrevMonitor => do
    let cid ← wm.focusedScreenId st
    let screen ← match wm.screens.get? cid with
      | some s => .ok s
      | none => .error "index out of bounds"
    let mon ← match screen.monitor with
      | some m => .ok m
      | none => .error "focus inconsistent"
    if wm.monitor_num = 0 then .error "remainder by zero"
    else wm.focus_monitor ((mon.id + wm.monitor_num - 1) % wm.monitor_num) st
  | .nextLayout => do
    let cid ← wm.focusedScreenId st
    let screen ← match wm.screens.get? cid with
      | some s => .ok s
      | none => .error "index out of bounds"
    let p ← screen.next_layout st
    .ok (wm.setScreen cid p.1, p.2)
  | .screen id => wm.switch_screen id st
  | .moveToScreen id => wm.move_window_to_screen id st
  | .movePointerRel _ _ => .ok (wm, st)
  | .mouseClickLeft => .ok (wm, st)
  | .spawn _ => .ok (wm, st)

end WinMan

/-! ## Concrete fixtures for the scenario claims

A screen with three mapped, non-floating client windows w1 < w2 < w3 (frame
ids 2 < 4 < 6, inner ids 3, 5, 7), a background and a bar, attached to a
900x600 monitor at the origin; root window id 1. -/

def w1 : Window := { frame := 2, inner := 3, state := .Mapped }

def w2 : Window := { frame := 4, inner := 5, state := .Mapped }

def w3 : Window := { frame := 6, inner := 7, state := .Mapped }

def bg0 : Window := { frame := 90, inner := 91, state := .Unmapped }

def bar0 : Window := { frame := 92, inner := 93, state := .Unmapped }

def bg1 : Window := { frame := 94, inner := 95, state := .Unmapped }

def bar1 : Window := { frame := 96, inner := 97, state := .Unmapped }

def mon0 : Monitor := { id := 0, info := { x := 0, y := 0, width := 900, height := 600 } }

def screen0 : Screen :=
  { id := 0, cfg := {}, monitor := some mon0, wins := [w1, w2, w3],
    background := bg0, bar := bar0 }

/-- A parked second screen (no monitor, no windows). -/
def screen1 : Screen :=
  { id := 1, cfg := {}, monitor := none, wins := [],
    background := bg1, bar := bar1 }

def wm0 : WinMan := { screens := [screen0, screen1], monitor_num := 1, root := 1 }

/-- X state with w2 focused (its inner id 5). -/
def stFocusW2 : XState := { focused := some 5 }

/-- X state with w1 focused (its inner id 3). -/
def stFocusW1 : XState := { focused := some 3 }

/-- X state with the focus on screen0's bar window (inner id 93). -/
def stFocusBar : XState := { focused := some 93 }

/-- w2 as a floating window (for the focus_next claim). -/
def w2f : Window := { w2 with float_geometry := some ⟨10, 10, 200, 150⟩ }

def screenF : Screen := { screen0 with wins := [w1, w2f, w3] }

/-- w2 after Window::float((10,10,200,150)) with w2 focused, and the
resulting X state. -/
def w2floated : Window := (w2.float ⟨10, 10, 200, 150⟩ stFocusW2).1

def stFloated : XState := (w2.float ⟨10, 10, 200, 150⟩ stFocusW2).2

def screenFloat : Screen := { screen0 with wins := [w1, w2floated, w3] }

/-- A second monitor and a second screen owning it (swap-branch fixture),
with one mapped client window (frame 20, inner 21). -/
def mon1 : Monitor := { id := 1, info := { x := 900, y := 0, width := 800, height := 600 } }

def w20 : Window := { frame := 20, inner := 21, state := .Mapped }

def screen1m : Screen := { screen1 with monitor := some mon1, wins := [w20] }

def wm2 : WinMan := { screens := [screen0, screen1m], monitor_num := 2, root := 1 }

/-- The coordinator owning the screen with the floating w2. -/
def wmFloat : WinMan := { screens := [screenFloat, screen1], monitor_num := 1, root := 1 }

/-! ## Statement-side helper definitions -/

/-- The frame configure Horizontal::layout builds for a slice starting at
offset p with width wdt (border bw). -/
def tileAux (mon : MonitorInfo) (bw wdt : Nat) (p : Int) : ConfigureWindowAux :=
  { x := some (mon.x + p), y := some mon.y, border_width := some bw,
    width := some (wdt - bw * 2), height := some (mon.height - bw * 2) }

/-- The window id Screen::focus_any hands the input focus to. -/
def focusAnyWid (s : Screen) : Wid :=
  match s.wins.find? (fun w => w.state = WindowState.Mapped || w.hidden) with
  | some first => first.inner
  | none => s.background.inner

/-- The ascending list of frame keys of the mapped client windows. -/
def mappedFrames (s : Screen) : List Wid :=
  (s.wins.filter (fun w => w.is_mapped)).map (fun w => w.frame)

/-- The cyclic successor in focus_next, characterised on sorted key lists:
the least mapped frame greater than the given one, wrapping to the least
mapped frame overall. -/
def nextMappedFrame (s : Screen) (of : Wid) : Option Wid :=
  ((mappedFrames s).find? (fun b => of < b)).orElse (fun _ => (mappedFrames s).head?)

/-- A window with its focus-highlight flag forgotten (refresh_layout may
recompute highlights but nothing else of a window). -/
def stripHighlight (w : Window) : Window := { w with highlighted := false }

/-! ## Theorems -/

/-- Monadic bind on Except reduced on an ok value. -/
lemma except_bind_ok {ε α β : Type} (a : α) (f : α → Except ε β) :
    (Except.ok a : Except ε α) >>= f = f a := rfl

/-- Monadic bind on Except reduced on an error value. -/
lemma except_bind_error {ε α β : Type} (e : ε) (f : α → Except ε β) :
    (Except.error e : Except ε α) >>= f = Except.error e := rfl

/-- Inversion of a successful Except bind. -/
lemma except_bind_inv {ε α β : Type} {x : Except ε α} {f : α → Except ε β}
    {b : β} (h : x >>= f = .ok b) : ∃ a, x = .ok a ∧ f a = .ok b := by
  cases x with
  | error e => rw [except_bind_error] at h; exact absurd h (by simp)
  | ok a => exact ⟨a, rfl, by rwa [except_bind_ok] at h⟩

/-- One ratio step keeps the ratio a multiple of 5 inside the interval. -/
lemma ratioStep_inv (r : Nat) (cmd : String) (h5 : 5 ≤ r) (h95 : r ≤ 95)
    (hm : r % 5 = 0) :
    5 ≤ horizontalProcessCommand r cmd ∧ horizontalProcessCommand r cmd ≤ 95 ∧
      horizontalProcessCommand r cmd % 5 = 0 := by
  unfold horizontalProcessCommand
  split_ifs <;> omega

/-- Folding ratio steps from any multiple of 5 inside the interval stays
inside it. -/
lemma ratioFold_inv (cmds : List String) (r : Nat) (h5 : 5 ≤ r) (h95 : r ≤ 95)
    (hm : r % 5 = 0) :
    5 ≤ cmds.foldl horizontalProcessCommand r ∧
      cmds.foldl horizontalProcessCommand r ≤ 95 ∧
      cmds.foldl horizontalProcessCommand r % 5 = 0 := by
  induction cmds generalizing r with
  | nil => exact ⟨h5, h95, hm⟩
  | cons c cs ih =>
    have hstep := ratioStep_inv r c h5 h95 hm
    simpa using ih (horizontalProcessCommand r c) hstep.1 hstep.2.1 hstep.2.2

/-- C7: the horizontal primary ratio starts at 50 and, under any sequence of
process_command strings, stays within the interval 5 to 95; a single step
adds exactly 5 on "+" below 95, subtracts exactly 5 on "-" above 5, and
leaves the ratio unchanged in every other case. -/
theorem C7_horizontal_ratio_invariant :
    (∀ cmds : List String,
      5 ≤ cmds.foldl horizontalProcessCommand 50 ∧
        cmds.foldl horizontalProcessCommand 50 ≤ 95) ∧
    (∀ r : Nat, r < 95 → horizontalProcessCommand r "+" = r + 5) ∧
    (∀ r : Nat, 95 ≤ r → horizontalProcessCommand r "+" = r) ∧
    (∀ r : Nat, 5 < r → horizontalProcessCommand r "-" = r - 5) ∧
    (∀ r : Nat, r ≤ 5 → horizontalProcessCommand r "-" = r) ∧
    (∀ (r : Nat) (cmd : String), cmd ≠ "+" → cmd ≠ "-" →
      horizontalProcessCommand r cmd = r) := by
  refine ⟨fun cmds => ?_, fun r h => ?_, fun r h => ?_, fun r h => ?_,
    fun r h => ?_, fun r cmd h1 h2 => ?_⟩
  · have := ratioFold_inv cmds 50 (by norm_num) (by norm_num) (by norm_num)
    exact ⟨this.1, this.2.1⟩
  all_goals unfold horizontalProcessCommand
  all_goals split_ifs <;> first | rfl | omega | simp_all

theorem C7_witness :
    (5 ≤ ["+", "-", "x"].foldl horizontalProcessCommand 50 ∧
      ["+", "-", "x"].foldl horizontalProcessCommand 50 ≤ 95) ∧
    horizontalProcessCommand 50 "+" = 50 + 5 ∧
    horizontalProcessCommand 95 "+" = 95 ∧
    horizontalProcessCommand 50 "-" = 50 - 5 ∧
    horizontalProcessCommand 5 "-" = 5 ∧
    horizontalProcessCommand 50 "xyz" = 50 :=
  ⟨C7_horizontal_ratio_invariant.1 ["+", "-", "x"],
   C7_horizontal_ratio_invariant.2.1 50 (by norm_num),
   C7_horizontal_ratio_invariant.2.2.1 95 (by norm_num),
   C7_horizontal_ratio_invariant.2.2.2.1 50 (by norm_num),
   C7_horizontal_ratio_invariant.2.2.2.2.1 5 (by norm_num),
   C7_horizontal_ratio_invariant.2.2.2.2.2 50 "xyz" (by decide) (by decide)⟩

/-- C9: Screen(id) and MoveToScreen(id) with an out-of-range screen index
return success and leave the coordinator state and the X state untouched. -/
theorem C9_invalid_id_noop (wm : WinMan) (st : XState) (id : Nat)
    (h : wm.screens.length ≤ id) :
    wm.switch_screen id st = .ok (wm, st) ∧
    wm.move_window_to_screen id st = .ok (wm, st) ∧
    wm.process_command (.screen id) st = .ok (wm, st) ∧
    wm.process_command (.moveToScreen id) st = .ok (wm, st) := by
  have h1 : wm.switch_screen id st = .ok (wm, st) := by
    unfold WinMan.switch_screen
    rw [if_pos h]
  have h2 : wm.move_window_to_screen id st = .ok (wm, st) := by
    unfold WinMan.move_window_to_screen
    rw [if_pos h]
  exact ⟨h1, h2, h1, h2⟩

theorem C9_witness :
    wm0.switch_screen 99 stFocusW2 = .ok (wm0, stFocusW2) ∧
    wm0.move_window_to_screen 99 stFocusW2 = .ok (wm0, stFocusW2) ∧
    wm0.process_command (.screen 99) stFocusW2 = .ok (wm0, stFocusW2) ∧
    wm0.process_command (.moveToScreen 99) stFocusW2 = .ok (wm0, stFocusW2) :=
  C9_invalid_id_noop wm0 stFocusW2 99 (by decide)

/-- C3, counterexample: a second Window::map on a Mapped, visible window
re-issues the two protocol map requests (the claim as stated requires the
request log to stay unchanged on the second call). -/
theorem C3_counterexample :
    ((w1.map {}).1.map (w1.map {}).2).2.log ≠ (w1.map {}).2.log ∧
    ((w1.map {}).1.map (w1.map {}).2).2.log
      = [Request.mapWindow 2, Request.mapWindow 3,
         Request.mapWindow 2, Request.mapWindow 3] := by decide

/-- C3, amended: map on a Mapped window returns an identical window state
and issues no focus request (the Created guard), but the protocol map
requests are re-issued whenever the window is not hidden: the map request
is guarded by the hidden flag, not by the Mapped state. -/
theorem C3_amended_map_idempotent_state (w : Window) (st : XState)
    (h : w.state = WindowState.Mapped) :
    (w.map st).1 = w ∧
    (w.map st).2.focused = st.focused ∧
    (w.map st).2.log = st.log ++
      (if w.hidden then []
       else [Request.mapWindow w.frame, Request.mapWindow w.inner]) := by
  obtain ⟨f, i, s, hd, fg, fv, hl, bw, dc⟩ := w
  simp only at h
  subst h
  cases hd <;> simp [Window.map, XState.emit, Window.focus, XState.focusWindow]

theorem C3_witness :
    (w1.map {}).1 = w1 ∧
    (w1.map {}).2.focused = XState.focused {} ∧
    (w1.map {}).2.log = XState.log {} ++
      (if w1.hidden then []
       else [Request.mapWindow w1.frame, Request.mapWindow w1.inner]) :=
  C3_amended_map_idempotent_state w1 {} rfl

/-- C8: the spec requires MoveToScreen to refuse the background and bar
windows; the code refuses only the background — with the focus on a bar
window, forget_window panics with "unknown window" (the bar is resolved by
window_mut but its frame is not a key of wins), instead of leaving the
window sets unchanged. -/
theorem C8_bar_move_panics :
    wm0.move_window_to_screen 1 stFocusBar = .error "unknown window" ∧
    wm0.move_window_to_screen 1 { focused := some 91 }
      = .ok (wm0, { focused := some 91 }) := ⟨rfl, rfl⟩

/-- C2, counterexample: Close on the focused w2 of the mapped windows
w1 < w2 < w3 moves the focus to w1 (inner id 3) — the first mapped window,
reached through the focus_any fallback because forget_window removes the
window before calling focus_next — not to w3 (inner id 7) as claimed. -/
theorem C2_counterexample :
    (wm0.process_command Command.close stFocusW2).toOption.map
        (fun p => p.2.focused) = some (some 3) ∧
    some (some 3) ≠ some (some (7 : Wid)) := by
  exact ⟨rfl, by decide⟩

/-- C2, amended: forget_window records whether the focused window belongs
to the screen, removes the window first, and only then calls focus_next,
whose containment check now fails, falling back to focus_any; hence Close
on focused w2 of w1 < w2 < w3 leaves the window set as w1, w3, puts the
focus on w1 (the first mapped window), and does so before the close request
destroys w2 (the set_input_focus for w1 precedes the destroy of w2 in the
request log); the layout is then recomputed over w1 and w3. -/
theorem C2_amended_close_scenario :
    (wm0.process_command Command.close stFocusW2).toOption.map
        (fun p =>
          (p.1.screens.map (fun s => s.wins.map (fun w => w.frame)),
           p.2.focused,
           p.2.log.findIdx (fun r => r == Request.setInputFocus 3),
           p.2.log.findIdx (fun r => r == Request.destroyWindow 5),
           p.2.log.length))
      = some ([[2, 6], []], some 3, 0, 9, 20) ∧ (0 : Nat) < 9 ∧ (9 : Nat) < 20 := by
  exact ⟨rfl, by decide, by decide⟩

/-- The tail loop of the horizontal layout places the i-th remaining window
at offset pos + i * wdt with width wdt. -/
lemma horizRest_get (mon : MonitorInfo) (bw wdt : Nat) :
    ∀ (l : List Window) (pos : Int) (i : Nat) (h : i < l.length),
      (horizRest mon bw wdt l pos).get? i
        = some (l.get ⟨i, h⟩, tileAux mon bw wdt (pos + (i : Int) * (wdt : Int))) := by
  intro l
  induction l with
  | nil => intro pos i h; simp at h
  | cons w rest ih =>
    intro pos i h
    cases i with
    | zero => simp [horizRest, tileAux]
    | succ n =>
      have hn : n < rest.length := Nat.lt_of_succ_lt_succ h
      have harg : pos + (wdt : Int) + (n : Int) * (wdt : Int)
          = pos + ((n + 1 : Nat) : Int) * (wdt : Int) := by push_cast; ring
      have := ih (pos + (wdt : Int)) n hn
      rw [harg] at this
      simpa [horizRest] using this

/-- C1, counterexample: with the initial (and only) ratio 50 the horizontal
layout gives three mapped windows on a 900-wide monitor the slices
450, 225, 225 at x offsets 0, 450, 675 — not three equal 300-wide slices. -/
theorem C1_counterexample :
    (horizontalPlace 50 {} mon0.info [w1, w2, w3] false).map
        (fun p => (p.1.frame, p.2.x, p.2.width))
      = [(2, some 0, some 450), (4, some 450, some 225), (6, some 675, some 225)] ∧
    ¬ ((horizontalPlace 50 {} mon0.info [w1, w2, w3] false).map
        (fun p => (p.1.frame, p.2.x, p.2.width))
      = [(2, some 0, some 300), (4, some 300, some 300), (6, some 600, some 300)]) := by
  decide

/-- Evaluating horizontalPlace on a list with at least two windows and
borders invisible. -/
lemma horizontalPlace_cons (ratio : Nat) (cfg : Config) (mon : MonitorInfo)
    (w0 : Window) (rest : List Window) (h : rest ≠ []) :
    horizontalPlace ratio cfg mon (w0 :: rest) false
      = (w0, tileAux mon 0 (mon.width * ratio / 100) 0)
        :: horizRest mon 0 ((mon.width - mon.width * ratio / 100) / rest.length)
             rest ((mon.width * ratio / 100 : Nat) : Int) := by
  cases rest with
  | nil => exact absurd rfl h
  | cons a t =>
    have hc : (w0 :: a :: t).length > 1 := by simp
    simp only [horizontalPlace]
    rw [if_pos hc]
    simp [tileAux]

/-- C1, amended: the horizontal layout always applies the primary ratio
(initially 50): window 0 receives width * ratio / 100, and each of the
remaining N - 1 windows receives (width - main) / (N - 1), packed left to
right from the main slice, all with the monitor's y and height (borders
invisible). -/
theorem C1_amended_horizontal_split (ratio : Nat) (cfg : Config)
    (mon : MonitorInfo) (w0 : Window) (rest : List Window)
    (hrest : rest ≠ []) (i : Nat) (hi : i < rest.length) :
    (horizontalPlace ratio cfg mon (w0 :: rest) false).get? 0
      = some (w0, tileAux mon 0 (mon.width * ratio / 100) 0) ∧
    (horizontalPlace ratio cfg mon (w0 :: rest) false).get? (i + 1)
      = some (rest.get ⟨i, hi⟩,
          tileAux mon 0 ((mon.width - mon.width * ratio / 100) / rest.length)
            (((mon.width * ratio / 100 : Nat) : Int)
              + (i : Int) * (((mon.width - mon.width * ratio / 100) / rest.length : Nat) : Int))) := by
  rw [horizontalPlace_cons ratio cfg mon w0 rest hrest]
  exact ⟨rfl, by
    simpa [List.get?_cons_succ] using
      horizRest_get mon 0 ((mon.width - mon.width * ratio / 100) / rest.length)
        rest ((mon.width * ratio / 100 : Nat) : Int) i hi⟩

/-- dropWhile stops exactly at the distinguished element. -/
lemma dropWhile_ne_append (a : Wid) (l1 l2 : List Wid) (h : ∀ x ∈ l1, x ≠ a) :
    (l1 ++ a :: l2).dropWhile (fun w => w ≠ a) = a :: l2 := by
  induction l1 with
  | nil => simp [List.dropWhile]
  | cons x xs ih =>
    have hx : x ≠ a := h x (List.mem_cons_self x xs)
    have ih' := ih (fun y hy => h y (List.mem_cons_of_mem x hy))
    simp only [List.cons_append, List.dropWhile_cons]
    simp only [ne_eq, decide_not] at ih' ⊢
    simp [hx, ih']

/-- find? for a strict upper cut around the distinguished element. -/
lemma find_gt_append (a : Wid) (l1 l2 : List Wid)
    (h1 : ∀ x ∈ l1, ¬ (a < x)) (h2 : ∀ y ∈ l2, a < y) :
    (l1 ++ a :: l2).find? (fun b => a < b) = l2.head? := by
  induction l1 with
  | nil =>
    cases l2 with
    | nil => simp [List.find?]
    | cons y ys =>
      have hy : a < y := h2 y (List.mem_cons_self y ys)
      simp [List.find?, hy]
  | cons x xs ih =>
    have hx : ¬ (a < x) := h1 x (List.mem_cons_self x xs)
    simp only [List.cons_append, List.find?_cons]
    simp [hx, ih (fun y hy => h1 y (List.mem_cons_of_mem x hy))]

/-- On a strictly ascending key list, the cyclic successor of a present key
is the least key greater than it, wrapping around to the overall least. -/
lemma cyclicNext_sorted (l : List Wid) (a : Wid) (hs : l.Pairwise (· < ·))
    (ha : a ∈ l) :
    Screen.cyclicNext l a = (l.find? (fun b => a < b)).orElse (fun _ => l.head?) := by
  obtain ⟨l1, l2, rfl⟩ := List.append_of_mem ha
  have hp := List.pairwise_append.mp hs
  have hlt : ∀ x ∈ l1, x < a :=
    fun x hx => hp.2.2 x hx a (List.mem_cons_self a l2)
  have h1ne : ∀ x ∈ l1, x ≠ a := fun x hx => Nat.ne_of_lt (hlt x hx)
  have h1nlt : ∀ x ∈ l1, ¬ (a < x) := fun x hx => Nat.lt_asymm (hlt x hx)
  have h2 : ∀ y ∈ l2, a < y :=
    fun y hy => (List.pairwise_cons.mp hp.2.1).1 y hy
  rw [find_gt_append a l1 l2 h1nlt h2]
  unfold Screen.cyclicNext
  rw [dropWhile_ne_append a l1 l2 h1ne]
  cases l2 with
  | nil => simp [Option.orElse]
  | cons b bs => simp [Option.orElse]

/-- C4, counterexample: with w1 focused and w2 floating (all three mapped),
focus_next hands the focus to the floating w2 (inner id 5), not to the
non-floating w3 (inner id 7) the claim demands. -/
theorem C4_counterexample :
    (screenF.focus_next stFocusW1).toOption.map (fun st => st.focused)
      = some (some 5) ∧
    some (some 5) ≠ some (some (7 : Wid)) := by
  exact ⟨rfl, by decide⟩

/-- C4, amended: focus_next falls back to focus_any when the focused window
is not contained by the screen or is the background or the bar; otherwise —
provided the focused window resolves to a mapped client window and the wins
keys are strictly ascending — it walks all mapped windows, floating ones
included, and focuses the window whose frame is the least mapped frame
greater than the current one, wrapping to the least mapped frame. -/
theorem C4_amended_focus_next (s : Screen) (st : XState) :
    ((s.contains (st.focused.getD 0) = false ∨
      s.background.contains (st.focused.getD 0) = true ∨
      s.bar.contains (st.focused.getD 0) = true) →
      s.focus_next st = .ok (s.focus_any st)) ∧
    (∀ (i : Nat) (ow : Window),
      s.contains (st.focused.getD 0) = true →
      s.background.contains (st.focused.getD 0) = false →
      s.bar.contains (st.focused.getD 0) = false →
      s.wins.findIdx? (fun w => w.contains (st.focused.getD 0)) = some i →
      s.wins.get? i = some ow →
      ow.is_mapped = true →
      (s.wins.map (fun w => w.frame)).Pairwise (· < ·) →
      ∃ nxt win, nextMappedFrame s ow.frame = some nxt ∧
        s.wins.find? (fun w => w.frame = nxt) = some win ∧
        s.focus_next st = .ok (win.focus st)) := by
  constructor
  · intro h
    unfold Screen.focus_next
    rcases h with h | h | h <;> simp [h]
  · intro i ow hcont hbg hbar hfind hget hmap hsorted
    have how : ow ∈ s.wins := List.get?_mem hget
    have hofr : ow.frame ∈ mappedFrames s := by
      unfold mappedFrames
      exact List.mem_map_of_mem _ (List.mem_filter.mpr ⟨how, hmap⟩)
    have hsorted2 : (mappedFrames s).Pairwise (· < ·) := by
      unfold mappedFrames
      have hsub : List.Sublist
          ((s.wins.filter (fun w => w.is_mapped)).map (fun w => w.frame))
          (s.wins.map (fun w => w.frame)) :=
        (List.filter_sublist s.wins).map _
      exact hsorted.sublist hsub
    have hcyc := cyclicNext_sorted (mappedFrames s) ow.frame hsorted2 hofr
    -- the cyclic successor exists
    have hne : mappedFrames s ≠ [] := List.ne_nil_of_mem hofr
    have hnxt : ∃ nxt, Screen.cyclicNext (mappedFrames s) ow.frame = some nxt := by
      rw [hcyc]
      cases hf : (mappedFrames s).find? (fun b => ow.frame < b) with
      | some b => exact ⟨b, rfl⟩
      | none =>
        cases hl : mappedFrames s with
        | nil => exact absurd hl hne
        | cons c cs => exact ⟨c, by simp [Option.orElse, hl]⟩
    obtain ⟨nxt, hnxteq⟩ := hnxt
    -- the successor is the frame of some client window
    have hnxtmem : nxt ∈ mappedFrames s := by
      rw [hcyc] at hnxteq
      cases hf : (mappedFrames s).find? (fun b => ow.frame < b) with
      | some b =>
        rw [hf] at hnxteq
        simp [Option.orElse] at hnxteq
        subst hnxteq
        exact List.mem_of_find?_eq_some hf
      | none =>
        rw [hf] at hnxteq
        simp [Option.orElse] at hnxteq
        exact List.mem_of_mem_head? hnxteq
    have hwin : ∃ win, s.wins.find? (fun w => w.frame = nxt) = some win := by
      have : ∃ w, w ∈ s.wins ∧ w.frame = nxt := by
        unfold mappedFrames at hnxtmem
        obtain ⟨w, hw, hweq⟩ := List.mem_map.mp hnxtmem
        exact ⟨w, (List.mem_filter.mp hw).1, hweq⟩
      obtain ⟨w, hwmem, hweq⟩ := this
      cases hfw : s.wins.find? (fun w => w.frame = nxt) with
      | some win => exact ⟨win, rfl⟩
      | none =>
        exfalso
        have := List.find?_eq_none.mp hfw w hwmem
        simp [hweq] at this
    obtain ⟨win, hwineq⟩ := hwin
    refine ⟨nxt, win, ?_, hwineq, ?_⟩
    · unfold nextMappedFrame
      rw [← hcyc]
      exact hnxteq
    · unfold Screen.focus_next
      have hcond : (!s.contains (st.focused.getD 0)
          || s.background.contains (st.focused.getD 0)
          || s.bar.contains (st.focused.getD 0)) = false := by
        rw [hcont, hbg, hbar]
        rfl
      have hget' : s.wins[i]? = some ow := by
        rw [← List.get?_eq_getElem?]
        exact hget
      have href : (s.windowRef (st.focused.getD 0)).bind s.getRef = some ow := by
        unfold Screen.windowRef Screen.getRef
        rw [hbg, hbar, hfind]
        simp [hget']
      have hnxteq' : Screen.cyclicNext
          ((s.wins.filter (fun w => w.is_mapped)).map (fun w => w.frame))
          ow.frame = some nxt := hnxteq
      simp only [hcond, Bool.false_eq_true, if_false, href, hnxteq', hwineq]

theorem C4_witness :
    (screen1.focus_next { focused := none }
        = .ok (screen1.focus_any { focused := none })) ∧
    (∃ nxt win, nextMappedFrame screen0 w1.frame = some nxt ∧
      screen0.wins.find? (fun w => w.frame = nxt) = some win ∧
      screen0.focus_next stFocusW1 = .ok (win.focus stFocusW1)) :=
  ⟨(C4_amended_focus_next screen1 { focused := none }).1 (Or.inl (by decide)),
   (C4_amended_focus_next screen0 stFocusW1).2 0 w1 (by decide) (by decide)
     (by decide) (by decide) (by decide) (by decide) (by decide)⟩

/-- The highlight pass only appends to the request log. -/
lemma mem_highlightWins_log (f : Wid) (r : Request) :
    ∀ (l : List Window) (st : XState),
      r ∈ st.log → r ∈ (Screen.highlightWins f l st).2.log := by
  intro l
  induction l with
  | nil =>
    intro st h
    simpa [Screen.highlightWins] using h
  | cons w rest ih =>
    intro st h
    unfold Screen.highlightWins
    by_cases hm : w.is_mapped = true
    · simp only [hm, if_true]
      apply ih
      simp only [Window.set_highlight, Window.update_ornament, XState.emit,
        List.mem_append]
      exact Or.inl h
    · simp only [hm, if_false]
      exact ih st h

/-- A mapped floating window contributes its reposition request to the
floating branch of refresh_layout. -/
lemma mem_floatingReqs (mi : MonitorInfo) (l : List Window) (w : Window)
    (g : Rectangle) (hw : w ∈ l) (hm : w.is_mapped = true)
    (hg : w.float_geometry = some g) :
    Request.configureWindow w.frame
      { x := some (mi.x + g.x), y := some (mi.y + g.y),
        width := some g.width, height := some g.height }
      ∈ Screen.floatingReqs mi l := by
  unfold Screen.floatingReqs
  apply List.mem_filterMap.mpr
  refine ⟨w, ?_, ?_⟩
  · exact List.mem_filter.mpr ⟨hw, by simp [hm, Window.is_floating, hg]⟩
  · simp [hg]

/-- C5, counterexample: Window::float adds 16 to the stored height, so a
window floated with (10,10,200,150) is stored — and drawn after NextLayout —
as (10,10,200,166), not (10,10,200,150). -/
theorem C5_counterexample :
    w2floated.float_geometry = some ⟨10, 10, 200, 166⟩ ∧
    some (⟨10, 10, 200, 166⟩ : Rectangle) ≠ some (⟨10, 10, 200, 150⟩ : Rectangle) ∧
    (screenFloat.next_layout stFloated).toOption.map
        (fun p => p.2.log.filter (fun r => match r with
          | Request.configureWindow 4 _ => true
          | _ => false))
      = some
        [Request.configureWindow 4 { border_width := some 0 },
         Request.configureWindow 4 { stack_mode := some .above },
         Request.configureWindow 4
           { x := some 10, y := some 10, width := some 200, height := some 166 }] := by
  exact ⟨rfl, by decide, rfl⟩

/-- C5, amended: refresh_layout (also after a NextLayout rotation) draws
every mapped floating window at monitor-origin plus its stored rectangle,
unaffected by the tiling strategy; however Window::float stores the given
rectangle with 16 added to its height (decoration frame space), so a window
floated with (10,10,200,150) is drawn at monitor-origin + (10,10,200,166). -/
theorem C5_amended_floating (s : Screen) (st : XState) (mon : Monitor)
    (w : Window) (g : Rectangle) (s' : Screen) (st' : XState)
    (hmon : s.monitor = some mon) (hw : w ∈ s.wins) (hm : w.is_mapped = true)
    (hg : w.float_geometry = some g)
    (hok : s.next_layout st = .ok (s', st')) :
    (Request.configureWindow w.frame
      { x := some (mon.info.x + g.x), y := some (mon.info.y + g.y),
        width := some g.width, height := some g.height } ∈ st'.log) ∧
    (∀ (v : Window) (r : Rectangle) (st0 : XState),
      ((v.float r st0).1).float_geometry
        = some { r with height := (r.height + 16) % 65536 }) := by
  constructor
  · unfold Screen.next_layout Screen.refresh_layout at hok
    simp only [hmon] at hok
    cases hl : s.layouts.get? ((s.current_layout + 1) % s.layouts.length) with
    | none =>
      rw [hl] at hok
      simp at hok
    | some L =>
      rw [hl] at hok
      simp only [Except.ok.injEq, Prod.mk.injEq] at hok
      obtain ⟨-, h2⟩ := hok
      subst h2
      apply mem_highlightWins_log
      simp only [XState.emitAll, List.mem_append]
      exact Or.inr (mem_floatingReqs mon.info s.wins w g hw hm hg)
  · intro v r st0
    unfold Window.float
    cases hfv : (v.add_frame st0).1.frame_visible <;> simp

theorem C5_witness :
    (Request.configureWindow w2floated.frame
      { x := some (mon0.info.x + (10 : Int)), y := some (mon0.info.y + (10 : Int)),
        width := some 200, height := some 166 }
      ∈ (match screenFloat.next_layout stFloated with
         | .ok p => p.2.log
         | .error _ => [])) ∧
    ((w2.float ⟨10, 10, 200, 150⟩ stFocusW2).1).float_geometry
      = some { x := 10, y := 10, width := 200, height := (150 + 16) % 65536 } := by
  obtain ⟨p, hok⟩ : ∃ p, screenFloat.next_layout stFloated = .ok p := ⟨_, rfl⟩
  have h := C5_amended_floating screenFloat stFloated mon0 w2floated
    ⟨10, 10, 200, 166⟩ p.1 p.2 rfl (by decide) (by decide) (by decide)
    (by rw [hok])
  refine ⟨?_, h.2 w2 ⟨10, 10, 200, 150⟩ stFocusW2⟩
  rw [hok]
  exact h.1

/-- List basics used below, proved locally to keep the development
self-contained. -/
lemma list_get?_set_self {α : Type} : ∀ (l : List α) (i : Nat) (a : α),
    i < l.length → (l.set i a).get? i = some a := by
  intro l
  induction l with
  | nil => intro i a h; simp at h
  | cons x xs ih =>
    intro i a h
    cases i with
    | zero => rfl
    | succ n => exact ih n a (Nat.lt_of_succ_lt_succ h)

lemma list_get?_lt_length {α : Type} : ∀ (l : List α) (i : Nat) (a : α),
    l.get? i = some a → i < l.length := by
  intro l
  induction l with
  | nil => intro i a h; cases i <;> simp [List.get?] at h
  | cons x xs ih =>
    intro i a h
    cases i with
    | zero => simp
    | succ n => exact Nat.succ_lt_succ (ih n a h)

/-- container_of resolves to the screen actually stored at the returned
index. -/
lemma containerOf_get? (wid : Wid) : ∀ (l : List Screen) (i : Nat) (s : Screen),
    WinMan.containerOf l wid = some (i, s) → l.get? i = some s := by
  intro l
  induction l with
  | nil => intro i s h; simp [WinMan.containerOf] at h
  | cons x xs ih =>
    intro i s h
    unfold WinMan.containerOf at h
    by_cases hc : x.contains wid = true
    · rw [if_pos hc] at h
      simp only [Option.some.injEq, Prod.mk.injEq] at h
      obtain ⟨h1, h2⟩ := h
      subst h1
      subst h2
      rfl
    · rw [if_neg hc] at h
      cases hx : WinMan.containerOf xs wid with
      | none =>
        rw [hx] at h
        simp at h
      | some p =>
        rw [hx] at h
        simp only [Option.map_some', Option.some.injEq, Prod.mk.injEq] at h
        obtain ⟨h1, h2⟩ := h
        subst h1
        subst h2
        exact ih p.1 p.2 (by rw [hx])

/-- A fold that only emits requests never changes the focused window. -/
lemma foldl_focused {α : Type} (f : XState → α → XState)
    (hf : ∀ st a, (f st a).focused = st.focused) :
    ∀ (l : List α) (st : XState), (l.foldl f st).focused = st.focused := by
  intro l
  induction l with
  | nil => intro st; rfl
  | cons x xs ih =>
    intro st
    rw [List.foldl_cons, ih, hf]

/-- No layout strategy touches the focus. -/
lemma layout_focused (L : LayoutState) (cfg : Config) (mi : MonitorInfo)
    (ws : List Window) (bv : Bool) (st : XState) :
    (L.layout cfg mi ws bv st).focused = st.focused := by
  cases L with
  | horizontalWithBorder ratio =>
    exact foldl_focused _ (fun st p => by simp [Window.configure, XState.emitAll]) _ st
  | verticalWithBorder =>
    exact foldl_focused _ (fun st p => by simp [XState.emit]) _ st
  | fullScreen =>
    exact foldl_focused _ (fun st p => by simp [XState.emit]) _ st

/-- The highlight pass changes only highlight flags and the log. -/
lemma highlightWins_shape (f : Wid) : ∀ (l : List Window) (st : XState),
    ((Screen.highlightWins f l st).1).map stripHighlight = l.map stripHighlight ∧
    (Screen.highlightWins f l st).2.focused = st.focused := by
  intro l
  induction l with
  | nil => intro st; exact ⟨rfl, rfl⟩
  | cons w rest ih =>
    intro st
    unfold Screen.highlightWins
    by_cases hm : w.is_mapped = true
    · simp only [hm, if_true]
      obtain ⟨ih1, ih2⟩ := ih ((w.set_highlight (w.contains f) st).2)
      constructor
      · simp only [List.map_cons, ih1]
        rfl
      · rw [ih2]
        simp [Window.set_highlight, Window.update_ornament, XState.emit]
    · simp only [hm, if_false]
      obtain ⟨ih1, ih2⟩ := ih st
      exact ⟨by simp [List.map_cons, ih1], ih2⟩

/-- refresh_layout changes no screen field but the highlight flags in wins,
and leaves the focus where it was. -/
lemma refresh_layout_shape (s s' : Screen) (st st' : XState)
    (h : s.refresh_layout st = .ok (s', st')) :
    s'.wins.map stripHighlight = s.wins.map stripHighlight ∧
    s'.id = s.id ∧ s'.cfg = s.cfg ∧ s'.monitor = s.monitor ∧
    s'.background = s.background ∧ s'.bar = s.bar ∧
    s'.layouts = s.layouts ∧ s'.current_layout = s.current_layout ∧
    s'.border_visible = s.border_visible ∧
    st'.focused = st.focused := by
  unfold Screen.refresh_layout at h
  cases hm : s.monitor with
  | none =>
    rw [hm] at h
    simp only [Except.ok.injEq, Prod.mk.injEq] at h
    obtain ⟨h1, h2⟩ := h
    subst h1
    subst h2
    exact ⟨rfl, rfl, rfl, hm, rfl, rfl, rfl, rfl, rfl, rfl⟩
  | some mon =>
    rw [hm] at h
    cases hl : s.layouts.get? s.current_layout with
    | none =>
      rw [hl] at h
      simp at h
    | some L =>
      rw [hl] at h
      simp only [Except.ok.injEq, Prod.mk.injEq] at h
      obtain ⟨h1, h2⟩ := h
      subst h1
      subst h2
      refine ⟨(highlightWins_shape _ s.wins _).1, rfl, rfl, rfl, rfl, rfl, rfl,
        rfl, rfl, ?_⟩
      rw [(highlightWins_shape _ s.wins _).2]
      simp [XState.emitAll, layout_focused]

/-- The all-screens refresh preserves the stripped window lists, the ids,
the monitors, backgrounds and bars of every screen, and the focus. -/
lemma refreshAll_shape : ∀ (l l' : List Screen) (st st' : XState),
    WinMan.refreshAll l st = .ok (l', st') →
    l'.map (fun s => s.wins.map stripHighlight)
      = l.map (fun s => s.wins.map stripHighlight) ∧
    l'.map (fun s => s.id) = l.map (fun s => s.id) ∧
    l'.map (fun s => s.monitor) = l.map (fun s => s.monitor) ∧
    l'.map (fun s => s.background) = l.map (fun s => s.background) ∧
    l'.map (fun s => s.bar) = l.map (fun s => s.bar) ∧
    st'.focused = st.focused := by
  intro l
  induction l with
  | nil =>
    intro l' st st' h
    unfold WinMan.refreshAll at h
    simp only [Except.ok.injEq, Prod.mk.injEq] at h
    obtain ⟨h1, h2⟩ := h
    subst h1
    subst h2
    exact ⟨rfl, rfl, rfl, rfl, rfl, rfl⟩
  | cons x xs ih =>
    intro l' st st' h
    unfold WinMan.refreshAll at h
    cases hx : x.refresh_layout st with
    | error e => rw [hx, except_bind_error] at h; simp at h
    | ok p =>
      rw [hx, except_bind_ok] at h
      cases hr : WinMan.refreshAll xs p.2 with
      | error e => rw [hr, except_bind_error] at h; simp at h
      | ok q =>
        rw [hr, except_bind_ok] at h
        simp only [Except.ok.injEq, Prod.mk.injEq] at h
        obtain ⟨h1, h2⟩ := h
        subst h1
        subst h2
        obtain ⟨s1, s2, s3, s4, s5, s6, s7, s8, s9, s10⟩ :=
          refresh_layout_shape x p.1 st p.2 (by rw [hx])
        obtain ⟨t1, t2, t3, t4, t5, t6⟩ := ih q.1 p.2 q.2 (by rw [hr])
        refine ⟨?_, ?_, ?_, ?_, ?_, ?_⟩ <;>
          simp [List.map_cons, s1, s2, s3, s4, s5, s6, t1, t2, t3, t4, t5, t6, s10]

/-- Pointwise corollary of equal mapped lists. -/
lemma map_get?_congr {α β : Type} (f : α → β) {l1 l2 : List α}
    (h : l1.map f = l2.map f) (i : Nat) :
    (l1.get? i).map f = (l2.get? i).map f := by
  rw [← List.get?_map, ← List.get?_map, h]

/-- Window::sink clears the float geometry and the decoration frame and
changes nothing else of the window. -/
lemma sink_fields (v : Window) (st0 : XState) :
    ((v.sink st0).1).float_geometry = none ∧
    ((v.sink st0).1).frame_visible = false ∧
    ((v.sink st0).1).frame = v.frame ∧
    ((v.sink st0).1).inner = v.inner ∧
    ((v.sink st0).1).state = v.state := by
  unfold Window.sink Window.remove_frame
  by_cases h : v.frame_visible <;> simp [h]

/-- C10: Sink on a focused client window (not the background) clears its
floating geometry and hides its decoration frame, then refreshes; with no
focused window, a focused window on no screen, or the focus on a background
window, Sink leaves the coordinator and X state unchanged. -/
theorem C10_sink_command (wm : WinMan) (st : XState) :
    (st.focused = none → wm.process_command .sink st = .ok (wm, st)) ∧
    (∀ wid, st.focused = some wid →
      WinMan.containerOf wm.screens wid = none →
      wm.process_command .sink st = .ok (wm, st)) ∧
    (∀ wid si s, st.focused = some wid →
      WinMan.containerOf wm.screens wid = some (si, s) →
      s.background.contains wid = true →
      wm.process_command .sink st = .ok (wm, st)) ∧
    (∀ (v : Window) (st0 : XState),
      ((v.sink st0).1).float_geometry = none ∧
      ((v.sink st0).1).frame_visible = false) ∧
    (∀ wid si s j w wm' st',
      st.focused = some wid →
      WinMan.containerOf wm.screens wid = some (si, s) →
      s.background.contains wid = false →
      s.windowRef wid = some (Screen.WinRef.client j) →
      s.wins.get? j = some w →
      wm.process_command .sink st = .ok (wm', st') →
      ∃ s' w', wm'.screens.get? si = some s' ∧ s'.wins.get? j = some w' ∧
        w'.float_geometry = none ∧ w'.frame_visible = false ∧
        w'.frame = w.frame ∧ w'.inner = w.inner) := by
  refine ⟨?_, ?_, ?_, ?_, ?_⟩
  · intro h
    simp only [WinMan.process_command, h]
  · intro wid hfoc hcont
    simp only [WinMan.process_command, hfoc, hcont]
  · intro wid si s hfoc hcont hbg
    simp only [WinMan.process_command, hfoc, hcont, hbg, if_true]
  · intro v st0
    exact ⟨(sink_fields v st0).1, (sink_fields v st0).2.1⟩
  · intro wid si s j w wm' st' hfoc hcont hbg href hget hok
    simp only [WinMan.process_command, hfoc, hcont, hbg, Bool.false_eq_true,
      if_false, href, except_bind_ok, Screen.getRef, hget] at hok
    -- hok is now the all-screens refresh of the modified coordinator
    unfold WinMan.refresh_layout at hok
    cases hra : WinMan.refreshAll
        (WinMan.setScreen wm si (s.setRef (Screen.WinRef.client j) (w.sink st).1)).screens
        ((w.sink st).2) with
    | error e => rw [hra, except_bind_error] at hok; simp at hok
    | ok q =>
      rw [hra, except_bind_ok] at hok
      simp only [Except.ok.injEq, Prod.mk.injEq] at hok
      obtain ⟨h1, h2⟩ := hok
      subst h1
      subst h2
      have hsi : si < wm.screens.length :=
        list_get?_lt_length wm.screens si s (containerOf_get? wid wm.screens si s hcont)
      have hj : j < s.wins.length := list_get?_lt_length s.wins j w hget
      have hshape := refreshAll_shape _ q.1 _ q.2 (by rw [hra])
      -- extract the screen at index si
      have hmid : (WinMan.setScreen wm si
          (s.setRef (Screen.WinRef.client j) (w.sink st).1)).screens.get? si
          = some (s.setRef (Screen.WinRef.client j) (w.sink st).1) := by
        unfold WinMan.setScreen
        exact list_get?_set_self wm.screens si _ hsi
      have hq := map_get?_congr (fun (sc : Screen) => sc.wins.map stripHighlight)
        hshape.1 si
      rw [hmid] at hq
      cases hq1 : q.1.get? si with
      | none => rw [hq1] at hq; simp at hq
      | some s' =>
        rw [hq1] at hq
        simp only [Option.map_some', Option.some.injEq] at hq
        -- extract the window at index j
        have hw := map_get?_congr stripHighlight hq j
        have hset : (s.setRef (Screen.WinRef.client j) (w.sink st).1).wins.get? j
            = some ((w.sink st).1) := by
          unfold Screen.setRef
          exact list_get?_set_self s.wins j _ hj
        rw [hset] at hw
        cases hw1 : s'.wins.get? j with
        | none => rw [hw1] at hw; simp at hw
        | some w' =>
          rw [hw1] at hw
          simp only [Option.map_some', Option.some.injEq] at hw
          refine ⟨s', w', rfl, hw1, ?_, ?_, ?_, ?_⟩
          · have := congrArg Window.float_geometry hw
            simpa [stripHighlight, (sink_fields w st).1] using this
          · have := congrArg Window.frame_visible hw
            simpa [stripHighlight, (sink_fields w st).2.1] using this
          · have := congrArg Window.frame hw
            simpa [stripHighlight, (sink_fields w st).2.2.1] using this
          · have := congrArg Window.inner hw
            simpa [stripHighlight, (sink_fields w st).2.2.2.1] using this

lemma list_get?_set_ne {α : Type} : ∀ (l : List α) (i j : Nat) (a : α),
    i ≠ j → (l.set i a).get? j = l.get? j := by
  intro l
  induction l with
  | nil => intro i j a h; simp
  | cons x xs ih =>
    intro i j a h
    cases i with
    | zero =>
      cases j with
      | zero => exact absurd rfl h
      | succ m => rfl
    | succ n =>
      cases j with
      | zero => rfl
      | succ m => exact ih n m a (fun hc => h (by rw [hc]))

/-- The mapped-or-hidden search is blind to highlight flags. -/
lemma find_mappedOrHidden_strip :
    ∀ (l1 l2 : List Window),
      l1.map stripHighlight = l2.map stripHighlight →
      Option.map (fun w => w.inner)
        (l1.find? (fun w => w.state = WindowState.Mapped || w.hidden))
      = Option.map (fun w => w.inner)
        (l2.find? (fun w => w.state = WindowState.Mapped || w.hidden)) := by
  intro l1
  induction l1 with
  | nil =>
    intro l2 h
    have : l2 = [] := by
      cases l2 with
      | nil => rfl
      | cons a t => simp at h
    subst this
    rfl
  | cons w1 t1 ih =>
    intro l2 h
    cases l2 with
    | nil => simp at h
    | cons w2 t2 =>
      simp only [List.map_cons, List.cons.injEq] at h
      obtain ⟨hh, ht⟩ := h
      have hstate : w1.state = w2.state := by
        simpa [stripHighlight] using congrArg Window.state hh
      have hhid : w1.hidden = w2.hidden := by
        simpa [stripHighlight] using congrArg Window.hidden hh
      have hinner : w1.inner = w2.inner := by
        simpa [stripHighlight] using congrArg Window.inner hh
      simp only [List.find?_cons]
      rw [hstate, hhid]
      cases hp : (decide (w2.state = WindowState.Mapped) || w2.hidden) with
      | true => simp [hinner]
      | false => exact ih t2 ht

/-- focus_any picks the same window on highlight-equivalent screens. -/
lemma focusAnyWid_congr (s1 s2 : Screen)
    (hw : s1.wins.map stripHighlight = s2.wins.map stripHighlight)
    (hb : s1.background = s2.background) :
    focusAnyWid s1 = focusAnyWid s2 := by
  unfold focusAnyWid
  have h := find_mappedOrHidden_strip s1.wins s2.wins hw
  cases h1 : s1.wins.find? (fun w => w.state = WindowState.Mapped || w.hidden) with
  | none =>
    cases h2 : s2.wins.find? (fun w => w.state = WindowState.Mapped || w.hidden) with
    | none => rw [hb]
    | some v => rw [h1, h2] at h; simp at h
  | some v =>
    cases h2 : s2.wins.find? (fun w => w.state = WindowState.Mapped || w.hidden) with
    | none => rw [h1, h2] at h; simp at h
    | some v2 =>
      rw [h1, h2] at h
      simpa using h

/-- focus_any sets the focus to exactly focusAnyWid. -/
lemma focus_any_focused (s : Screen) (st : XState) :
    (s.focus_any st).focused = some (focusAnyWid s) := by
  unfold Screen.focus_any focusAnyWid
  cases h : s.wins.find? (fun w => w.state = WindowState.Mapped || w.hidden) <;>
    simp [h, Window.focus, XState.focusWindow]

/-- Highlight-equivalent window lists carry the same frame keys. -/
lemma frames_of_strip {l1 l2 : List Window}
    (h : l1.map stripHighlight = l2.map stripHighlight) :
    l1.map (fun w => w.frame) = l2.map (fun w => w.frame) := by
  have h2 := congrArg (List.map (fun w => w.frame)) h
  simpa [List.map_map, Function.comp, stripHighlight] using h2

/-- Re-mapping on attach preserves the frame keys. -/
lemma attachWins_frames : ∀ (l : List Window) (st : XState),
    ((Screen.attachWins l st).1).map (fun w => w.frame)
      = l.map (fun w => w.frame) := by
  intro l
  induction l with
  | nil => intro st; rfl
  | cons w rest ih =>
    intro st
    unfold Screen.attachWins
    by_cases hc : (w.state = WindowState.Mapped || w.hidden) = true
    · rw [if_pos hc]
      simp [Window.map, List.map_cons, ih]
    · rw [if_neg hc]
      simp [List.map_cons, ih]

/-- The detach loop preserves frame keys and hides every mapped window. -/
lemma detachWins_spec : ∀ (l : List Window) (st : XState) (l' : List Window)
    (st' : XState), Screen.detachWins l st = .ok (l', st') →
    l'.map (fun w => w.frame) = l.map (fun w => w.frame) ∧
    (∀ i w w', l.get? i = some w → l'.get? i = some w' →
      w.is_mapped = true → w'.hidden = true) := by
  intro l
  induction l with
  | nil =>
    intro st l' st' h
    unfold Screen.detachWins at h
    simp only [Except.ok.injEq, Prod.mk.injEq] at h
    obtain ⟨h1, h2⟩ := h
    subst h1
    refine ⟨rfl, ?_⟩
    intro i w w' hw
    simp at hw
  | cons w rest ih =>
    intro st l' st' h
    unfold Screen.detachWins at h
    by_cases hm : w.is_mapped = true
    · rw [if_pos hm] at h
      unfold Window.hide at h
      by_cases hh : w.hidden = true
      · rw [if_pos hh, except_bind_error] at h
        simp at h
      · rw [if_neg hh, except_bind_ok] at h
        cases hr : Screen.detachWins rest
            (XState.emit st (Request.unmapWindow w.frame)) with
        | error e => rw [hr, except_bind_error] at h; simp at h
        | ok q =>
          rw [hr, except_bind_ok] at h
          simp only [Except.ok.injEq, Prod.mk.injEq] at h
          obtain ⟨h1, h2⟩ := h
          subst h1
          obtain ⟨ih1, ih2⟩ := ih _ q.1 q.2 (by rw [hr])
          refine ⟨by simp [List.map_cons, ih1], ?_⟩
          intro i v v' hv hv' hvm
          cases i with
          | zero =>
            simp only [List.get?_cons_zero, Option.some.injEq] at hv hv'
            subst hv
            subst hv'
            rfl
          | succ n => exact ih2 n v v' hv hv' hvm
    · rw [if_neg hm] at h
      cases hr : Screen.detachWins rest st with
      | error e => rw [hr, except_bind_error] at h; simp at h
      | ok q =>
        rw [hr, except_bind_ok] at h
        simp only [Except.ok.injEq, Prod.mk.injEq] at h
        obtain ⟨h1, h2⟩ := h
        subst h1
        obtain ⟨ih1, ih2⟩ := ih _ q.1 q.2 (by rw [hr])
        refine ⟨by simp [List.map_cons, ih1], ?_⟩
        intro i v v' hv hv' hvm
        cases i with
        | zero =>
          simp only [List.get?_cons_zero, Option.some.injEq] at hv
          subst hv
          exact absurd hvm hm
        | succ n => exact ih2 n v v' hv hv' hvm

/-- Screen::detach on an attached screen: yields its monitor, parks it,
preserves the frame keys, hides the mapped windows, and keeps background
identity apart from its state. -/
lemma detach_spec (s : Screen) (st : XState) (m : Monitor)
    (mon' : Option Monitor) (s' : Screen) (st' : XState)
    (hm : s.monitor = some m)
    (h : s.detach st = .ok (mon', s', st')) :
    mon' = some m ∧ s'.monitor = none ∧
    s'.wins.map (fun w => w.frame) = s.wins.map (fun w => w.frame) ∧
    (∀ i w w', s.wins.get? i = some w → s'.wins.get? i = some w' →
      w.is_mapped = true → w'.hidden = true) := by
  unfold Screen.detach at h
  rw [hm] at h
  simp only [Window.unmap] at h
  cases hr : Screen.detachWins s.wins
      (XState.emit (XState.emit st (Request.unmapWindow s.background.frame))
        (Request.unmapWindow s.bar.frame)) with
  | error e => rw [hr, except_bind_error] at h; simp at h
  | ok q =>
    rw [hr, except_bind_ok] at h
    simp only [Except.ok.injEq, Prod.mk.injEq] at h
    obtain ⟨h1, h2, h3⟩ := h
    subst h1
    subst h2
    obtain ⟨d1, d2⟩ := detachWins_spec s.wins _ q.1 q.2 (by rw [hr])
    exact ⟨rfl, rfl, d1, d2⟩

/-- Screen::attach: installs the monitor and preserves the frame keys and
the background identity. -/
lemma attach_spec (s : Screen) (mon : Monitor) (st : XState)
    (s' : Screen) (st' : XState)
    (h : s.attach mon st = .ok (s', st')) :
    s'.monitor = some mon ∧
    s'.wins.map (fun w => w.frame) = s.wins.map (fun w => w.frame) := by
  unfold Screen.attach Screen.update_background at h
  simp only [except_bind_ok] at h
  simp only [Except.ok.injEq, Prod.mk.injEq] at h
  obtain ⟨h1, h2⟩ := h
  subst h1
  exact ⟨rfl, attachWins_frames s.wins _⟩

/-- Screen(id) when the target is the focused screen (and owns a monitor):
no-op. -/
lemma switch_screen_noop (wm : WinMan) (st : XState) (id cid : Nat)
    (tgt : Screen) (m : Monitor)
    (hcid : wm.focusedScreenId st = .ok cid)
    (htgt : wm.screens.get? id = some tgt)
    (hm : tgt.monitor = some m)
    (heq : cid = id) :
    wm.switch_screen id st = .ok (wm, st) := by
  have hlen : ¬ (id ≥ wm.screens.length) := by
    have := list_get?_lt_length wm.screens id tgt htgt
    omega
  unfold WinMan.switch_screen
  rw [if_neg hlen, hcid, except_bind_ok, htgt]
  simp only [except_bind_ok, hm, Option.isNone_some, Bool.false_eq_true,
    if_false, if_pos heq]

/-- Screen(id) when the target owns a different monitor: the two screens
swap monitor assignments in place, neither loses its window list, and focus
lands on the target focus_any choice. -/
lemma switch_screen_swap (wm : WinMan) (st : XState) (id cid : Nat)
    (tgt cur : Screen) (m : Monitor) (wm' : WinMan) (st' : XState)
    (hcid : wm.focusedScreenId st = .ok cid)
    (htgt : wm.screens.get? id = some tgt)
    (hm : tgt.monitor = some m)
    (hne : cid ≠ id)
    (hcur : wm.screens.get? cid = some cur)
    (hok : wm.switch_screen id st = .ok (wm', st')) :
    ∃ cur' tgt', wm'.screens.get? cid = some cur' ∧
      wm'.screens.get? id = some tgt' ∧
      cur'.monitor = some m ∧
      tgt'.monitor = cur.monitor ∧
      cur'.wins.map (fun w => w.frame) = cur.wins.map (fun w => w.frame) ∧
      tgt'.wins.map (fun w => w.frame) = tgt.wins.map (fun w => w.frame) ∧
      st'.focused = some (focusAnyWid tgt') := by
  have hlen : ¬ (id ≥ wm.screens.length) := by
    have := list_get?_lt_length wm.screens id tgt htgt
    omega
  have hsicid : cid < wm.screens.length := list_get?_lt_length _ _ _ hcur
  have hsid : id < wm.screens.length := list_get?_lt_length _ _ _ htgt
  unfold WinMan.switch_screen at hok
  rw [if_neg hlen, hcid, except_bind_ok, htgt] at hok
  simp only [except_bind_ok, hm, Option.isNone_some, Bool.false_eq_true,
    if_false, if_neg hne, hcur] at hok
  -- swap_monitors: both update_background calls must succeed
  unfold Screen.swap_monitors Screen.update_background at hok
  rw [hm] at hok
  simp only [except_bind_ok] at hok
  cases hcm : cur.monitor with
  | none =>
    rw [hcm] at hok
    simp only [except_bind_error] at hok
    simp at hok
  | some cm =>
    rw [hcm] at hok
    simp only [except_bind_ok] at hok
    unfold WinMan.focus_changed WinMan.refresh_layout at hok
    obtain ⟨q, hra, hok2⟩ := except_bind_inv hok
    · simp only [Except.ok.injEq, Prod.mk.injEq] at hok2
      obtain ⟨h1, h2⟩ := hok2
      subst h1
      subst h2
      have hshape := refreshAll_shape _ q.1 _ q.2 (by rw [hra])
      have hmid_cid : ((wm.setScreen cid { cur with monitor := some m }).setScreen
          id { tgt with monitor := some cm }).screens.get? cid
          = some ({ cur with monitor := some m } : Screen) := by
        unfold WinMan.setScreen
        rw [list_get?_set_ne _ id cid _ (fun hc => hne hc.symm)]
        exact list_get?_set_self _ cid _ hsicid
      have hmid_id : ((wm.setScreen cid { cur with monitor := some m }).setScreen
          id { tgt with monitor := some cm }).screens.get? id
          = some ({ tgt with monitor := some cm } : Screen) := by
        unfold WinMan.setScreen
        exact list_get?_set_self _ id _ (by rw [List.length_set]; exact hsid)
      -- extract the final screens
      have hq_cid := map_get?_congr (fun (sc : Screen) => sc.wins.map stripHighlight)
        hshape.1 cid
      have hq_id := map_get?_congr (fun (sc : Screen) => sc.wins.map stripHighlight)
        hshape.1 id
      have hmon_cid := map_get?_congr (fun (sc : Screen) => sc.monitor)
        hshape.2.2.1 cid
      have hmon_id := map_get?_congr (fun (sc : Screen) => sc.monitor)
        hshape.2.2.1 id
      have hbg_id := map_get?_congr (fun (sc : Screen) => sc.background)
        hshape.2.2.2.1 id
      rw [hmid_cid] at hq_cid hmon_cid
      rw [hmid_id] at hq_id hmon_id hbg_id
      cases hc1 : q.1.get? cid with
      | none => rw [hc1] at hq_cid; simp at hq_cid
      | some cur' =>
        cases ht1 : q.1.get? id with
        | none => rw [ht1] at hq_id; simp at hq_id
        | some tgt' =>
          rw [hc1] at hq_cid hmon_cid
          rw [ht1] at hq_id hmon_id hbg_id
          simp only [Option.map_some',
            Option.some.injEq] at hq_cid hq_id hmon_cid hmon_id hbg_id
          refine ⟨cur', tgt', rfl, rfl, hmon_cid, hmon_id,
            frames_of_strip hq_cid, frames_of_strip hq_id, ?_⟩
          rw [hshape.2.2.2.2.2, focus_any_focused]
          exact congrArg some
            (focusAnyWid_congr { tgt with monitor := some cm } tgt'
              hq_id.symm hbg_id.symm)

/-- Screen(id) when the target has no monitor: the focused screen's monitor
moves to the target, the old screen is parked with its mapped windows
hidden, window lists are preserved, and focus lands on the target focus_any
choice. -/
lemma switch_screen_attach (wm : WinMan) (st : XState) (id cid : Nat)
    (tgt cur : Screen) (wm' : WinMan) (st' : XState)
    (htgt : wm.screens.get? id = some tgt)
    (hmt : tgt.monitor = none)
    (hcid : wm.focusedScreenId st = .ok cid)
    (hcur : wm.screens.get? cid = some cur)
    (hok : wm.switch_screen id st = .ok (wm', st')) :
    ∃ cur' tgt', wm'.screens.get? cid = some cur' ∧
      wm'.screens.get? id = some tgt' ∧
      cur'.monitor = none ∧
      tgt'.monitor = cur.monitor ∧
      cur'.wins.map (fun w => w.frame) = cur.wins.map (fun w => w.frame) ∧
      tgt'.wins.map (fun w => w.frame) = tgt.wins.map (fun w => w.frame) ∧
      (∀ i w w', cur.wins.get? i = some w → cur'.wins.get? i = some w' →
        w.is_mapped = true → w'.hidden = true) ∧
      st'.focused = some (focusAnyWid tgt') := by
  have hlen : ¬ (id ≥ wm.screens.length) := by
    have := list_get?_lt_length wm.screens id tgt htgt
    omega
  have hsicid : cid < wm.screens.length := list_get?_lt_length _ _ _ hcur
  have hsid : id < wm.screens.length := list_get?_lt_length _ _ _ htgt
  unfold WinMan.switch_screen at hok
  rw [if_neg hlen, hcid, except_bind_ok, htgt] at hok
  simp only [except_bind_ok, hmt, Option.isNone_none, if_true] at hok
  rw [hcur] at hok
  simp only [except_bind_ok] at hok
  obtain ⟨pd, hpd, hok⟩ := except_bind_inv hok
  cases hp1 : pd.1 with
  | none =>
    rw [hp1] at hok
    exact Except.noConfusion
      (show (Except.error "focus inconsistent" : Except String (WinMan × XState))
        = Except.ok (wm', st') from hok)
  | some mNew =>
    rw [hp1] at hok
    have hcmex : ∃ cm, cur.monitor = some cm := by
      cases hcmc : cur.monitor with
      | none =>
        exfalso
        unfold Screen.detach at hpd
        rw [hcmc] at hpd
        simp only [Except.ok.injEq] at hpd
        rw [← hpd] at hp1
        simp at hp1
      | some cm => exact ⟨cm, rfl⟩
    obtain ⟨cm, hcmc⟩ := hcmex
    obtain ⟨dmon, dnone, dframes, dhid⟩ :=
      detach_spec cur _ cm pd.1 pd.2.1 pd.2.2 hcmc (by rw [hpd])
    have hcmeq : cm = mNew := by
      rw [dmon] at hp1
      simpa using hp1
    have hcidid : cid ≠ id := by
      intro hc
      rw [hc, htgt] at hcur
      simp only [Option.some.injEq] at hcur
      rw [← hcur, hmt] at hcmc
      exact Option.noConfusion hcmc
    have hget2 : (WinMan.setScreen wm cid pd.2.1).screens.get? id = some tgt := by
      unfold WinMan.setScreen
      rw [list_get?_set_ne _ cid id _ hcidid]
      exact htgt
    rw [hget2] at hok
    simp only [except_bind_ok] at hok
    obtain ⟨pa, hpa, hok⟩ := except_bind_inv hok
    obtain ⟨amon, aframes⟩ := attach_spec tgt mNew pd.2.2 pa.1 pa.2 (by rw [hpa])
    unfold WinMan.focus_changed WinMan.refresh_layout at hok
    obtain ⟨q, hra, hok2⟩ := except_bind_inv hok
    simp only [Except.ok.injEq, Prod.mk.injEq] at hok2
    obtain ⟨h1, h2⟩ := hok2
    subst h1
    subst h2
    have hshape := refreshAll_shape _ q.1 _ q.2 (by rw [hra])
    have hmid_cid : ((WinMan.setScreen wm cid pd.2.1).setScreen id pa.1).screens.get? cid
        = some pd.2.1 := by
      unfold WinMan.setScreen
      rw [list_get?_set_ne _ id cid _ (fun hc => hcidid hc.symm)]
      exact list_get?_set_self _ cid _ hsicid
    have hmid_id : ((WinMan.setScreen wm cid pd.2.1).setScreen id pa.1).screens.get? id
        = some pa.1 := by
      unfold WinMan.setScreen
      exact list_get?_set_self _ id _ (by rw [List.length_set]; exact hsid)
    have hq_cid := map_get?_congr (fun (sc : Screen) => sc.wins.map stripHighlight)
      hshape.1 cid
    have hq_id := map_get?_congr (fun (sc : Screen) => sc.wins.map stripHighlight)
      hshape.1 id
    have hmon_cid := map_get?_congr (fun (sc : Screen) => sc.monitor)
      hshape.2.2.1 cid
    have hmon_id := map_get?_congr (fun (sc : Screen) => sc.monitor)
      hshape.2.2.1 id
    have hbg_id := map_get?_congr (fun (sc : Screen) => sc.background)
      hshape.2.2.2.1 id
    rw [hmid_cid] at hq_cid hmon_cid
    rw [hmid_id] at hq_id hmon_id hbg_id
    cases hc1 : q.1.get? cid with
    | none => rw [hc1] at hq_cid; simp at hq_cid
    | some cur' =>
      cases ht1 : q.1.get? id with
      | none => rw [ht1] at hq_id; simp at hq_id
      | some tgt' =>
        rw [hc1] at hq_cid hmon_cid
        rw [ht1] at hq_id hmon_id hbg_id
        simp only [Option.map_some',
          Option.some.injEq] at hq_cid hq_id hmon_cid hmon_id hbg_id
        refine ⟨cur', tgt', rfl, rfl, ?_, ?_, ?_, ?_, ?_, ?_⟩
        · rw [hmon_cid, dnone]
        · rw [hmon_id, amon, hcmc, hcmeq]
        · rw [frames_of_strip hq_cid, dframes]
        · rw [frames_of_strip hq_id, aframes]
        · intro i w w' hw hw' hm2
          have hpt := map_get?_congr stripHighlight hq_cid i
          rw [hw'] at hpt
          cases hv : pd.2.1.wins.get? i with
          | none => rw [hv] at hpt; simp at hpt
          | some v =>
            rw [hv] at hpt
            simp only [Option.map_some', Option.some.injEq] at hpt
            have hvh := dhid i w v hw hv hm2
            have hh := congrArg Window.hidden hpt
            simp only [stripHighlight] at hh
            rw [hh]
            exact hvh
        · rw [hshape.2.2.2.2.2, focus_any_focused]
          exact congrArg some (focusAnyWid_congr pa.1 tgt' hq_id.symm hbg_id.symm)

/-- C6: the Screen(id) command with a valid id: no-op when the target is the
focused screen holding the active monitor; when the target has no monitor,
the focused screen's monitor is detached and attached to the target, the old
screen ends parked with its mapped windows hidden and neither screen loses
its window list; when the target owns a different monitor, the two screens
swap monitor assignments in place keeping their window lists; in both
mutating branches the focus lands on the target screen's focus_any choice. -/
theorem C6_switch_screen (wm : WinMan) (st : XState) (id : Nat) :
    (∀ cid tgt m,
      wm.focusedScreenId st = .ok cid →
      wm.screens.get? id = some tgt →
      tgt.monitor = some m →
      cid = id →
      wm.switch_screen id st = .ok (wm, st)) ∧
    (∀ cid tgt cur wm' st',
      wm.screens.get? id = some tgt →
      tgt.monitor = none →
      wm.focusedScreenId st = .ok cid →
      wm.screens.get? cid = some cur →
      wm.switch_screen id st = .ok (wm', st') →
      ∃ cur' tgt', wm'.screens.get? cid = some cur' ∧
        wm'.screens.get? id = some tgt' ∧
        cur'.monitor = none ∧
        tgt'.monitor = cur.monitor ∧
        cur'.wins.map (fun w => w.frame) = cur.wins.map (fun w => w.frame) ∧
        tgt'.wins.map (fun w => w.frame) = tgt.wins.map (fun w => w.frame) ∧
        (∀ i w w', cur.wins.get? i = some w → cur'.wins.get? i = some w' →
          w.is_mapped = true → w'.hidden = true) ∧
        st'.focused = some (focusAnyWid tgt')) ∧
    (∀ cid tgt cur m wm' st',
      wm.focusedScreenId st = .ok cid →
      wm.screens.get? id = some tgt →
      tgt.monitor = some m →
      cid ≠ id →
      wm.screens.get? cid = some cur →
      wm.switch_screen id st = .ok (wm', st') →
      ∃ cur' tgt', wm'.screens.get? cid = some cur' ∧
        wm'.screens.get? id = some tgt' ∧
        cur'.monitor = some m ∧
        tgt'.monitor = cur.monitor ∧
        cur'.wins.map (fun w => w.frame) = cur.wins.map (fun w => w.frame) ∧
        tgt'.wins.map (fun w => w.frame) = tgt.wins.map (fun w => w.frame) ∧
        st'.focused = some (focusAnyWid tgt')) :=
  ⟨fun cid tgt m h1 h2 h3 h4 => switch_screen_noop wm st id cid tgt m h1 h2 h3 h4,
   fun cid tgt cur wm' st' h1 h2 h3 h4 h5 =>
     switch_screen_attach wm st id cid tgt cur wm' st' h1 h2 h3 h4 h5,
   fun cid tgt cur m wm' st' h1 h2 h3 h4 h5 h6 =>
     switch_screen_swap wm st id cid tgt cur m wm' st' h1 h2 h3 h4 h5 h6⟩

theorem C6_witness :
    wm2.switch_screen 0 stFocusW2 = .ok (wm2, stFocusW2) ∧
    (∃ p cur' tgt', wm0.switch_screen 1 stFocusW2 = .ok p ∧
      p.1.screens.get? 0 = some cur' ∧
      p.1.screens.get? 1 = some tgt' ∧
      cur'.monitor = none ∧
      tgt'.monitor = screen0.monitor ∧
      cur'.wins.map (fun w => w.frame) = screen0.wins.map (fun w => w.frame) ∧
      tgt'.wins.map (fun w => w.frame) = screen1.wins.map (fun w => w.frame) ∧
      (∀ i w w', screen0.wins.get? i = some w → cur'.wins.get? i = some w' →
        w.is_mapped = true → w'.hidden = true) ∧
      p.2.focused = some (focusAnyWid tgt')) ∧
    (∃ p cur' tgt', wm2.switch_screen 1 stFocusW2 = .ok p ∧
      p.1.screens.get? 0 = some cur' ∧
      p.1.screens.get? 1 = some tgt' ∧
      cur'.monitor = some mon1 ∧
      tgt'.monitor = screen0.monitor ∧
      cur'.wins.map (fun w => w.frame) = screen0.wins.map (fun w => w.frame) ∧
      tgt'.wins.map (fun w => w.frame) = screen1m.wins.map (fun w => w.frame) ∧
      p.2.focused = some (focusAnyWid tgt')) := by
  refine ⟨(C6_switch_screen wm2 stFocusW2 0).1 0 screen0 mon0 rfl
    (by decide) (by decide) rfl, ?_, ?_⟩
  · obtain ⟨p, hok⟩ : ∃ p, wm0.switch_screen 1 stFocusW2 = .ok p := ⟨_, rfl⟩
    obtain ⟨cur', tgt', h1, h2, h3, h4, h5, h6, h7, h8⟩ :=
      (C6_switch_screen wm0 stFocusW2 1).2.1 0 screen1 screen0 p.1 p.2
        (by decide) (by decide) rfl (by decide) (by rw [hok])
    exact ⟨p, cur', tgt', hok, h1, h2, h3, h4, h5, h6, h7, h8⟩
  · obtain ⟨p, hok⟩ : ∃ p, wm2.switch_screen 1 stFocusW2 = .ok p := ⟨_, rfl⟩
    obtain ⟨cur', tgt', h1, h2, h3, h4, h5, h6, h7⟩ :=
      (C6_switch_screen wm2 stFocusW2 1).2.2 0 screen1m screen0 mon1 p.1 p.2
        rfl (by decide) (by decide) (by decide) (by decide) (by rw [hok])
    exact ⟨p, cur', tgt', hok, h1, h2, h3, h4, h5, h6, h7⟩

theorem C10_witness :
    wm0.process_command .sink {} = .ok (wm0, {}) ∧
    wm0.process_command .sink { focused := some 91 }
      = .ok (wm0, { focused := some 91 }) ∧
    (∃ s' w',
      (match wmFloat.process_command .sink stFloated with
       | .ok pr => pr.1.screens.get? 0
       | .error _ => none) = some s' ∧
      s'.wins.get? 1 = some w' ∧ w'.float_geometry = none ∧
      w'.frame_visible = false ∧ w'.frame = w2floated.frame ∧
      w'.inner = w2floated.inner) := by
  refine ⟨(C10_sink_command wm0 {}).1 rfl,
    (C10_sink_command wm0 { focused := some 91 }).2.2.1 91 0 screen0 rfl
      (by decide) (by decide), ?_⟩
  obtain ⟨p, hok⟩ : ∃ p, wmFloat.process_command .sink stFloated = .ok p :=
    ⟨_, rfl⟩
  obtain ⟨s', w', h1, h2, h3, h4, h5, h6⟩ :=
    (C10_sink_command wmFloat stFloated).2.2.2.2 5 0 screenFloat 1 w2floated
      p.1 p.2 (by decide) (by decide) (by decide) (by decide) (by decide)
      (by rw [hok])
  refine ⟨s', w', ?_, h2, h3, h4, h5, h6⟩
  rw [hok]
  exact h1

theorem C1_witness :
    (horizontalPlace 50 {} mon0.info [w1, w2, w3] false).get? 0
      = some (w1, tileAux mon0.info 0 (mon0.info.width * 50 / 100) 0) ∧
    (horizontalPlace 50 {} mon0.info [w1, w2, w3] false).get? 2
      = some (w3,
          tileAux mon0.info 0
            ((mon0.info.width - mon0.info.width * 50 / 100) / 2)
            (((mon0.info.width * 50 / 100 : Nat) : Int)
              + (1 : Int) * (((mon0.info.width - mon0.info.width * 50 / 100) / 2 : Nat) : Int))) :=
  C1_amended_horizontal_split 50 {} mon0.info w1 [w2, w3] (by decide) 1 (by decide)

end Daily
